import Mathlib

/-!
Verification of the StockTracker backend orchestration layer.

The definitions below are a shallow embedding of the TypeScript source:
  * `src/backend/models/News.ts` (timestamp normalization, transactional
    article save, headline marking, pagination helpers),
  * `src/backend/services/newsService.ts` (fetch-and-save cycle, headline
    derivation, in-memory pagination),
  * `src/backend/services/alphaVantageService.ts` together with the data
    service (cache-or-fetch orchestrators for currency rates and commodity
    prices, rate-limit pacing).

External effects are made explicit: the database is a record of tables
(lists of rows), provider clients are oracle functions, statement failures
are injected through failure oracles, and timing/provider activity is
recorded as an event trace.
-/

namespace StockTracker

/-! ## Timestamp normalization (`convertToMySQLDateTime`, News.ts lines 16-44) -/

/-- A UTC wall-clock date-time at second precision.  This models the values a
JS `Date` exposes through its `getUTC*` accessors (with `getUTCMonth() + 1`
already applied, so `month` ranges over 1..12 as in the formatted output). -/
structure UTCDateTime where
  year : Nat
  month : Nat
  day : Nat
  hour : Nat
  minute : Nat
  second : Nat
deriving DecidableEq

/-- Models `String(n).padStart(2, '0')` as applied to each two-digit field. -/
def pad2 (n : Nat) : String :=
  if n < 10 then "0" ++ toString n else toString n

/-- The `YYYY-MM-DD HH:MM:SS` rendering built field by field in
`convertToMySQLDateTime` (both its success branch and its fallback branch). -/
def formatMySQLDateTime (d : UTCDateTime) : String :=
  toString d.year ++ "-" ++ pad2 d.month ++ "-" ++ pad2 d.day ++ " " ++
    pad2 d.hour ++ ":" ++ pad2 d.minute ++ ":" ++ pad2 d.second

/-- Embedding of `convertToMySQLDateTime` (News.ts lines 16-44).  JS date
parsing (`new Date(s)` plus the `isNaN(date.getTime())` guard) is abstracted
as the oracle `parse`: `parse s = some d` when the string parses to the UTC
instant `d`, and `parse s = none` when parsing fails.  On failure the source
catches its own thrown error and falls back to the current time `now`. -/
def convertToMySQLDateTime (parse : String → Option UTCDateTime)
    (now : UTCDateTime) (isoString : String) : String :=
  match parse isoString with
  | some d => formatMySQLDateTime d
  | none => formatMySQLDateTime now

/-! ## News data shapes (frontend/services/interface.ts lines 150-199) -/

/-- `EntityHighlight` from interface.ts. -/
structure EntityHighlight where
  highlight : String
  sentiment : ℚ
  highlighted_in : String
deriving DecidableEq

/-- `NewsEntity` from interface.ts.  Provider sentiment and match scores are
decimal numbers; they are embedded as rationals. -/
structure NewsEntity where
  symbol : String
  name : String
  exchange : String
  exchange_long : String
  country : String
  type : String
  industry : String
  match_score : ℚ
  sentiment_score : ℚ
  highlights : List EntityHighlight
deriving DecidableEq

/-- `SimilarNews` from interface.ts. -/
structure SimilarNews where
  uuid : String
  title : String
  published_at : String
  source : String
deriving DecidableEq

/-- `MarketauxNewsArticle` from interface.ts.  The optional
`categories`/`entities`/`similar` arrays are embedded as plain lists with
`[]` standing for an absent array: every consumer in the source guards with
`xs && xs.length > 0`, which treats absent and empty alike. -/
structure MarketauxNewsArticle where
  uuid : String
  title : String
  description : String
  snippet : String
  url : String
  image_url : String
  language : String
  published_at : String
  source : String
  categories : List String
  entities : List NewsEntity
  similar : List SimilarNews
deriving DecidableEq

/-! ## Headline derivation (`fetchAndSaveNews`, newsService.ts lines 109-141) -/

/-- The headline qualification test of newsService.ts lines 110-121: the
article has entities, and some entity has `|sentiment_score| > 0.3` or some
entity has `match_score > 20`. -/
def isHeadlineCandidate (a : MarketauxNewsArticle) : Bool :=
  !a.entities.isEmpty &&
    (a.entities.any (fun e => decide ((3 : ℚ)/10 < |e.sentiment_score|)) ||
     a.entities.any (fun e => decide ((20 : ℚ) < e.match_score)))

/-- `Math.max(...entities.map(e => Math.abs(e.sentiment_score)))` of
newsService.ts lines 135-137, evaluated on a non-empty list the way the JS
spread does.  The `[]` case never arises in the source (it is guarded by
`entities.length > 0`); `0` is a placeholder for it. -/
def maxAbsSentiment : List NewsEntity → ℚ
  | [] => 0
  | e :: rest => rest.foldl (fun m x => max m |x.sentiment_score|) |e.sentiment_score|

/-- The per-candidate priority of newsService.ts lines 132-141:
`Math.round(maxSentiment * 100)` when the article has entities, `0`
otherwise.  `Math.round` is the round-half-up `round : ℚ → ℤ`. -/
def headlinePriority (a : MarketauxNewsArticle) : ℤ :=
  if a.entities.isEmpty then 0 else round (maxAbsSentiment a.entities * 100)

/-! ## In-memory pagination (`getNewsWithPagination`, newsService.ts lines 166-205) -/

/-- The `{articles, total, page, limit}` record returned by the service-level
`getNewsWithPagination`. -/
structure NewsPageResult (α : Type) where
  articles : List α
  total : Nat
  page : Nat
  limit : Nat
deriving DecidableEq

/-- The pagination applied by both branches of the service-level
`getNewsWithPagination` (newsService.ts lines 180-204): slice the in-memory
list by `[(page-1)*limit, (page-1)*limit + limit)` (`Array.slice`, i.e. drop
then take), report the pre-slice length as `total`, and echo `page` and
`limit`. -/
def getNewsWithPagination {α : Type} (allNews : List α) (page limit : Nat) :
    NewsPageResult α :=
  let startIndex := (page - 1) * limit
  let endIndex := startIndex + limit
  { articles := (allNews.drop startIndex).take (endIndex - startIndex)
    total := allNews.length
    page := page
    limit := limit }

/-! ## Currency / commodity cache orchestrators (alphaVantageService.ts / dataService) -/

/-- One tracked currency pair (`MAIN_CURRENCIES` entries). -/
structure CurrencyPair where
  fromCurrency : String
  toCurrency : String
  name : String
deriving DecidableEq

/-- The fixed tracked list `MAIN_CURRENCIES` (dataService lines 114-119). -/
def MAIN_CURRENCIES : List CurrencyPair :=
  [⟨"USD", "CNY", "USD/CNY"⟩, ⟨"EUR", "USD", "EUR/USD"⟩,
   ⟨"GBP", "USD", "GBP/USD"⟩, ⟨"USD", "JPY", "USD/JPY"⟩]

/-- One tracked commodity (`POPULAR_COMMODITIES` entries). -/
structure CommodityInfo where
  symbol : String
  name : String
  unit : String
deriving DecidableEq

/-- The fixed tracked list `POPULAR_COMMODITIES` (dataService lines 122-131). -/
def POPULAR_COMMODITIES : List CommodityInfo :=
  [⟨"GLD", "Gold", "USD/oz"⟩, ⟨"SLV", "Silver", "USD/oz"⟩,
   ⟨"USO", "Crude Oil", "USD/barrel"⟩, ⟨"CPER", "Copper", "USD/lb"⟩,
   ⟨"CORN", "Corn", "USD/bushel"⟩, ⟨"WEAT", "Wheat", "USD/bushel"⟩,
   ⟨"SOYB", "Soybean", "USD/bushel"⟩, ⟨"NIB", "Cocoa", "USD/metric ton"⟩]

/-- A parsed provider response for one currency pair, holding the fields the
orchestrator consumes.  The source's `parseFloat` on the textual rate fields
is absorbed into the oracle: the oracle hands back the parsed rationals. -/
structure CurrencyRateApi where
  timeZone : String
  exchangeRate : ℚ
  bidPrice : ℚ
  askPrice : ℚ
deriving DecidableEq

/-- A persisted `currency_rates` row / result entry (`CurrencyRateData` of
models/CurrencyRate.ts, also the shape pushed into `results`). -/
structure CurrencyRateData where
  fromCurrency : String
  toCurrency : String
  exchangeRate : ℚ
  bidPrice : ℚ
  askPrice : ℚ
  timeZone : String
  date : String
deriving DecidableEq

/-- A parsed `GLOBAL_QUOTE` provider response (interface.ts `StockQuote`;
the field `open` of the source is named `openPrice` here because `open` is a
Lean keyword).  All fields stay strings, as in the source. -/
structure StockQuoteApi where
  symbol : String
  openPrice : String
  high : String
  low : String
  price : String
  volume : String
  latestTradingDay : String
  previousClose : String
  change : String
  changePercent : String
deriving DecidableEq

/-- A persisted `commodity_prices` row / result entry, with the field names
of `saveCommodityPrice`'s argument (dataService lines 241-254; the `results`
entry of lines 257-270 carries the same values under display names). -/
structure CommodityPriceData where
  symbol : String
  name : String
  price : String
  openPrice : String
  highPrice : String
  lowPrice : String
  previousClose : String
  changeAmount : String
  changePercent : String
  volume : String
  unit : String
  date : String
deriving DecidableEq

/-- Observable actions of one orchestrator run: an outbound provider call,
a successful database write, or the fixed 12-second inter-call pause. -/
inductive BatchEvent
  | providerCall (name : String)
  | dbWrite (name : String)
  | pause
deriving DecidableEq

/-- Project the provider-call names out of an event trace, in order. -/
def providerCallNames (evs : List BatchEvent) : List String :=
  evs.filterMap fun e =>
    match e with
    | .providerCall n => some n
    | _ => none

/-- `getCurrencyRatesByDate` (models/CurrencyRate.ts): all rows whose `date`
column equals the requested date. -/
def getCurrencyRatesByDate (db : List CurrencyRateData) (date : String) :
    List CurrencyRateData :=
  db.filter fun r => r.date == date

/-- `saveCurrencyRate` (models/CurrencyRate.ts): `INSERT ... ON DUPLICATE KEY
UPDATE` keyed by `(from_currency, to_currency, date)` — update the non-key
columns in place when the key exists, append otherwise. -/
def upsertCurrencyRate (r : CurrencyRateData) (db : List CurrencyRateData) :
    List CurrencyRateData :=
  if db.any (fun x => x.fromCurrency == r.fromCurrency &&
      x.toCurrency == r.toCurrency && x.date == r.date) then
    db.map fun x =>
      if x.fromCurrency == r.fromCurrency && x.toCurrency == r.toCurrency &&
          x.date == r.date then
        { x with exchangeRate := r.exchangeRate, bidPrice := r.bidPrice,
                 askPrice := r.askPrice, timeZone := r.timeZone }
      else x
  else db ++ [r]

/-- The result-row / db-row built for one successful currency fetch
(dataService lines 195-214; both the saved record and the pushed result carry
these values). -/
def currencyRow (c : CurrencyPair) (rate : CurrencyRateApi) (date : String) :
    CurrencyRateData :=
  { fromCurrency := c.fromCurrency, toCurrency := c.toCurrency,
    exchangeRate := rate.exchangeRate, bidPrice := rate.bidPrice,
    askPrice := rate.askPrice, timeZone := rate.timeZone, date := date }

/-- Outcome of a currency orchestrator run: the database after the run, the
accumulated `results` array, and the event trace. -/
structure CurrencyFetchOutcome where
  db : List CurrencyRateData
  results : List CurrencyRateData
  events : List BatchEvent
deriving DecidableEq

/-- The `for (const currency of MAIN_CURRENCIES)` loop of
`fetchAndSaveCurrencyRates` (dataService lines 186-226).  `fetchO c = none`
models `fetchCurrencyRateFromAPI` throwing for `c`; `saveO c = false` models
`saveCurrencyRate` throwing.  Either exception lands in the per-instrument
`catch`, which logs and continues, so a failed instrument contributes no
result, no write and no pause.  The pause guard
`currency !== MAIN_CURRENCIES[MAIN_CURRENCIES.length - 1]` compares against
the last element; over the distinct tracked instruments it holds exactly when
the current element is not in last position, i.e. when `rest` is non-empty. -/
def currencyLoop (fetchO : CurrencyPair → Option CurrencyRateApi)
    (saveO : CurrencyPair → Bool) (date : String) :
    List CurrencyPair → List CurrencyRateData → CurrencyFetchOutcome
  | [], db => { db := db, results := [], events := [] }
  | c :: rest, db =>
    match fetchO c with
    | none =>
      let o := currencyLoop fetchO saveO date rest db
      { o with events := BatchEvent.providerCall c.name :: o.events }
    | some rate =>
      if saveO c then
        let db1 := upsertCurrencyRate (currencyRow c rate date) db
        let pauseEvs : List BatchEvent := if rest.isEmpty then [] else [.pause]
        let o := currencyLoop fetchO saveO date rest db1
        { o with results := currencyRow c rate date :: o.results,
                 events := BatchEvent.providerCall c.name ::
                   BatchEvent.dbWrite c.name :: pauseEvs ++ o.events }
      else
        let o := currencyLoop fetchO saveO date rest db
        { o with events := BatchEvent.providerCall c.name :: o.events }

/-- `fetchAndSaveCurrencyRates` (dataService lines 186-226): run the loop
over the full tracked list. -/
def fetchAndSaveCurrencyRates (fetchO : CurrencyPair → Option CurrencyRateApi)
    (saveO : CurrencyPair → Bool) (date : String) (db : List CurrencyRateData) :
    CurrencyFetchOutcome :=
  currencyLoop fetchO saveO date MAIN_CURRENCIES db

/-- `checkAndGetCurrencyRates` (dataService lines 144-159): query persistence
for today's rows; on a non-empty result return them unchanged with no events;
on an empty result run the fetch-and-save batch. -/
def checkAndGetCurrencyRates (fetchO : CurrencyPair → Option CurrencyRateApi)
    (saveO : CurrencyPair → Bool) (today : String) (db : List CurrencyRateData) :
    CurrencyFetchOutcome :=
  let data := getCurrencyRatesByDate db today
  if data.isEmpty then fetchAndSaveCurrencyRates fetchO saveO today db
  else { db := db, results := data, events := [] }

/-- The db-row built for one successful commodity fetch (dataService lines
241-254). -/
def commodityRow (c : CommodityInfo) (quote : StockQuoteApi) (date : String) :
    CommodityPriceData :=
  { symbol := c.symbol, name := c.name, price := quote.price,
    openPrice := quote.openPrice, highPrice := quote.high,
    lowPrice := quote.low, previousClose := quote.previousClose,
    changeAmount := quote.change, changePercent := quote.changePercent,
    volume := quote.volume, unit := c.unit, date := date }

/-- Outcome of a commodity orchestrator run. -/
structure CommodityFetchOutcome where
  db : List CommodityPriceData
  results : List CommodityPriceData
  events : List BatchEvent
deriving DecidableEq

/-- `saveCommodityPrice` keyed by `(symbol, date)`, mirroring the upsert of
models/CommodityPrice.ts: its `ON DUPLICATE KEY UPDATE` overwrites the price
columns (price, open/high/low, previous close, change amount/percent,
volume) in place when the key exists — `name` and `unit` are left
unchanged — and appends otherwise. -/
def upsertCommodityPrice (r : CommodityPriceData) (db : List CommodityPriceData) :
    List CommodityPriceData :=
  if db.any (fun x => x.symbol == r.symbol && x.date == r.date) then
    db.map fun x =>
      if x.symbol == r.symbol && x.date == r.date then
        { x with price := r.price, openPrice := r.openPrice,
                 highPrice := r.highPrice, lowPrice := r.lowPrice,
                 previousClose := r.previousClose, changeAmount := r.changeAmount,
                 changePercent := r.changePercent, volume := r.volume }
      else x
  else db ++ [r]

/-- The `for (const commodity of POPULAR_COMMODITIES)` loop of
`fetchAndSaveCommodityPrices` (dataService lines 232-282), with the same
failure, catch-and-continue and pacing structure as the currency loop. -/
def commodityLoop (fetchO : CommodityInfo → Option StockQuoteApi)
    (saveO : CommodityInfo → Bool) (date : String) :
    List CommodityInfo → List CommodityPriceData → CommodityFetchOutcome
  | [], db => { db := db, results := [], events := [] }
  | c :: rest, db =>
    match fetchO c with
    | none =>
      let o := commodityLoop fetchO saveO date rest db
      { o with events := BatchEvent.providerCall c.name :: o.events }
    | some quote =>
      if saveO c then
        let db1 := upsertCommodityPrice (commodityRow c quote date) db
        let pauseEvs : List BatchEvent := if rest.isEmpty then [] else [.pause]
        let o := commodityLoop fetchO saveO date rest db1
        { o with results := commodityRow c quote date :: o.results,
                 events := BatchEvent.providerCall c.name ::
                   BatchEvent.dbWrite c.name :: pauseEvs ++ o.events }
      else
        let o := commodityLoop fetchO saveO date rest db
        { o with events := BatchEvent.providerCall c.name :: o.events }

/-- `fetchAndSaveCommodityPrices` (dataService lines 232-282). -/
def fetchAndSaveCommodityPrices (fetchO : CommodityInfo → Option StockQuoteApi)
    (saveO : CommodityInfo → Bool) (date : String) (db : List CommodityPriceData) :
    CommodityFetchOutcome :=
  commodityLoop fetchO saveO date POPULAR_COMMODITIES db

/-! ## News persistence model (models/News.ts) -/

/-- A `news_articles` row (unique key: `uuid`). -/
structure NewsArticleRow where
  uuid : String
  title : String
  description : String
  snippet : String
  url : String
  image_url : String
  language : String
  published_at : String
  source : String
deriving DecidableEq

/-- A `news_entities` row; `id` is the AUTO_INCREMENT surrogate key. -/
structure NewsEntityRow where
  id : Nat
  news_uuid : String
  symbol : String
  name : String
  exchange : String
  exchange_long : String
  country : String
  type : String
  industry : String
  match_score : ℚ
  sentiment_score : ℚ
deriving DecidableEq

/-- A `news_entity_highlights` row, keyed to its entity by `entity_id`. -/
structure HighlightRow where
  entity_id : Nat
  highlight : String
  sentiment : ℚ
  highlighted_in : String
deriving DecidableEq

/-- A `news_similar` row.  `similar_published_at` is `none` when the source
stored SQL NULL (the falsy check `similar.published_at ? ... : null`). -/
structure SimilarRow where
  news_uuid : String
  similar_uuid : String
  similar_title : String
  similar_published_at : Option String
  similar_source : String
deriving DecidableEq

/-- A `news_daily_cache` row (unique key: `(news_uuid, date)`). -/
structure HeadlineCacheRow where
  news_uuid : String
  date : String
  is_headline : Bool
  priority : ℤ
deriving DecidableEq

/-- The news portion of the database: one list per table, plus the
AUTO_INCREMENT counter feeding `news_entities.id`. -/
structure NewsDB where
  news_articles : List NewsArticleRow
  news_categories : List (String × String)
  news_entities : List NewsEntityRow
  news_entity_highlights : List HighlightRow
  news_similar : List SimilarRow
  news_daily_cache : List HeadlineCacheRow
  nextEntityId : Nat
deriving DecidableEq

/-- The empty database, with entity ids starting at 1 (MySQL convention). -/
def emptyNewsDB : NewsDB :=
  { news_articles := [], news_categories := [], news_entities := [],
    news_entity_highlights := [], news_similar := [], news_daily_cache := [],
    nextEntityId := 1 }

/-- The article row built by the upsert of News.ts lines 287-311, with the
publish timestamp normalized through `convertToMySQLDateTime`. -/
def articleRowOf (parse : String → Option UTCDateTime) (now : UTCDateTime)
    (a : MarketauxNewsArticle) : NewsArticleRow :=
  { uuid := a.uuid, title := a.title, description := a.description,
    snippet := a.snippet, url := a.url, image_url := a.image_url,
    language := a.language,
    published_at := convertToMySQLDateTime parse now a.published_at,
    source := a.source }

/-- `INSERT ... ON DUPLICATE KEY UPDATE` on `news_articles` (uuid-keyed):
replace the row in place when the uuid exists, append otherwise. -/
def upsertNewsArticleRow (r : NewsArticleRow) (rows : List NewsArticleRow) :
    List NewsArticleRow :=
  if rows.any (fun x => x.uuid == r.uuid) then
    rows.map fun x => if x.uuid == r.uuid then r else x
  else rows ++ [r]

/-- Statement effect: the article upsert (News.ts lines 287-311). -/
def insertArticleStmt (parse : String → Option UTCDateTime) (now : UTCDateTime)
    (a : MarketauxNewsArticle) (db : NewsDB) : NewsDB :=
  { db with news_articles := upsertNewsArticleRow (articleRowOf parse now a) db.news_articles }

/-- Statement effect: `DELETE FROM news_categories WHERE news_uuid = ?`. -/
def deleteCategoriesStmt (uuid : String) (db : NewsDB) : NewsDB :=
  { db with news_categories := db.news_categories.filter fun c => !(c.1 == uuid) }

/-- Statement effect: the batched category insert (News.ts lines 320-326). -/
def insertCategoriesStmt (uuid : String) (cats : List String) (db : NewsDB) : NewsDB :=
  { db with news_categories := db.news_categories ++ cats.map fun c => (uuid, c) }

/-- Statement effect: `DELETE FROM news_entities WHERE news_uuid = ?`.
Note the source deletes only from `news_entities`; highlight rows belonging
to the deleted entities are not touched here. -/
def deleteEntitiesStmt (uuid : String) (db : NewsDB) : NewsDB :=
  { db with news_entities := db.news_entities.filter fun e => !(e.news_uuid == uuid) }

/-- The entity row built by the insert of News.ts lines 338-354, given the
id assigned by AUTO_INCREMENT. -/
def entityRowOf (uuid : String) (e : NewsEntity) (id : Nat) : NewsEntityRow :=
  { id := id, news_uuid := uuid, symbol := e.symbol, name := e.name,
    exchange := e.exchange, exchange_long := e.exchange_long,
    country := e.country, type := e.type, industry := e.industry,
    match_score := e.match_score, sentiment_score := e.sentiment_score }

/-- Statement effect: one entity insert; returns `result.insertId`. -/
def insertEntityStmt (uuid : String) (e : NewsEntity) (db : NewsDB) : NewsDB × Nat :=
  ({ db with news_entities := db.news_entities ++ [entityRowOf uuid e db.nextEntityId],
             nextEntityId := db.nextEntityId + 1 },
   db.nextEntityId)

/-- The highlight row built by the insert of News.ts lines 360-372. -/
def highlightRowOf (entityId : Nat) (h : EntityHighlight) : HighlightRow :=
  { entity_id := entityId, highlight := h.highlight, sentiment := h.sentiment,
    highlighted_in := h.highlighted_in }

/-- Statement effect: the batched highlight insert for one entity. -/
def insertHighlightsStmt (entityId : Nat) (hs : List EntityHighlight) (db : NewsDB) : NewsDB :=
  { db with news_entity_highlights :=
      db.news_entity_highlights ++ hs.map (highlightRowOf entityId) }

/-- Statement effect: `DELETE FROM news_similar WHERE news_uuid = ?`. -/
def deleteSimilarStmt (uuid : String) (db : NewsDB) : NewsDB :=
  { db with news_similar := db.news_similar.filter fun s => !(s.news_uuid == uuid) }

/-- The similar-news row built by the insert of News.ts lines 384-397;
`similar.published_at ? convertToMySQLDateTime(...) : null` with the empty
string as the falsy case. -/
def similarRowOf (parse : String → Option UTCDateTime) (now : UTCDateTime)
    (uuid : String) (s : SimilarNews) : SimilarRow :=
  { news_uuid := uuid, similar_uuid := s.uuid, similar_title := s.title,
    similar_published_at :=
      if s.published_at == "" then none
      else some (convertToMySQLDateTime parse now s.published_at),
    similar_source := s.source }

/-- Statement effect: the batched similar-news insert. -/
def insertSimilarStmt (parse : String → Option UTCDateTime) (now : UTCDateTime)
    (uuid : String) (sims : List SimilarNews) (db : NewsDB) : NewsDB :=
  { db with news_similar := db.news_similar ++ sims.map (similarRowOf parse now uuid) }

/-! ### The transaction -/

/-- Working state of the open transaction: the uncommitted database plus the
index of the next fallible operation of the call (operation `0` of a call is
`connection.beginTransaction()`, so the first body statement has index `1`).
The counter addresses which operation an injected failure hits. -/
structure TxState where
  db : NewsDB
  execCount : Nat
deriving DecidableEq

/-- One `connection.execute` with a pure table effect.  The failure oracle
`failAt` decides whether this (0-indexed) statement of the call throws; a
throw carries the statement index as the propagated error. -/
def execStmtU (failAt : Nat → Bool) (f : NewsDB → NewsDB) (s : TxState) :
    Except Nat TxState :=
  if failAt s.execCount then .error s.execCount
  else .ok { db := f s.db, execCount := s.execCount + 1 }

/-- One `connection.execute` that also returns a value (the entity insert
returning `insertId`). -/
def execStmtV (failAt : Nat → Bool) (f : NewsDB → NewsDB × Nat) (s : TxState) :
    Except Nat (TxState × Nat) :=
  if failAt s.execCount then .error s.execCount
  else .ok ({ db := (f s.db).1, execCount := s.execCount + 1 }, (f s.db).2)

/-- The `for (const entity of article.entities)` body of News.ts lines
337-374: insert the entity, then insert its highlights when it has any; a
thrown statement aborts the loop with its error. -/
def saveEntitiesLoop (failAt : Nat → Bool) (uuid : String) :
    List NewsEntity → TxState → Except Nat TxState
  | [], s => .ok s
  | e :: rest, s =>
    match execStmtV failAt (insertEntityStmt uuid e) s with
    | .error i => .error i
    | .ok p =>
      match (if e.highlights.isEmpty then Except.ok p.1
             else execStmtU failAt (insertHighlightsStmt p.2 e.highlights) p.1) with
      | .error i => .error i
      | .ok s1 => saveEntitiesLoop failAt uuid rest s1

/-- The body of the `try` block of `saveNewsArticleWithRelations` (News.ts
lines 285-399): article upsert, then — each guarded by non-emptiness —
category replacement, entity deletion plus per-entity insertion with
highlights, and similar-reference replacement.  The first thrown statement
aborts the body with its error. -/
def saveNewsBody (failAt : Nat → Bool) (parse : String → Option UTCDateTime)
    (now : UTCDateTime) (a : MarketauxNewsArticle) (s : TxState) :
    Except Nat TxState :=
  match execStmtU failAt (insertArticleStmt parse now a) s with
  | .error i => .error i
  | .ok s1 =>
    match (if a.categories.isEmpty then Except.ok s1
           else
             match execStmtU failAt (deleteCategoriesStmt a.uuid) s1 with
             | .error i => .error i
             | .ok s2 => execStmtU failAt (insertCategoriesStmt a.uuid a.categories) s2) with
    | .error i => .error i
    | .ok s3 =>
      match (if a.entities.isEmpty then Except.ok s3
             else
               match execStmtU failAt (deleteEntitiesStmt a.uuid) s3 with
               | .error i => .error i
               | .ok s4 => saveEntitiesLoop failAt a.uuid a.entities s4) with
      | .error i => .error i
      | .ok s5 =>
        if a.similar.isEmpty then .ok s5
        else
          match execStmtU failAt (deleteSimilarStmt a.uuid) s5 with
          | .error i => .error i
          | .ok s6 => execStmtU failAt (insertSimilarStmt parse now a.uuid a.similar) s6

/-- Outcome of one `saveNewsArticleWithRelations` call: the persisted
database after the call, the error propagated to the caller (`some i` when
statement `i` threw), and whether the pooled connection was released. -/
structure SaveOutcome where
  db : NewsDB
  error : Option Nat
  released : Bool
deriving DecidableEq

/-- `saveNewsArticleWithRelations` (News.ts lines 278-407).  The call's
fallible operations are numbered by the `failAt` oracle: operation `0` is
`connection.beginTransaction()`, which the source awaits between
`pool.getConnection()` and the `try`/`finally` — when it throws, nothing has
been written and the error propagates, but `connection.release()` is never
reached, so the acquired connection leaks (`released := false`).  The body
statements count from `1` and run inside the `try`: on success `commit`
persists the working state; on any statement failure the `catch` runs
`rollback` (restoring the pre-call snapshot) and rethrows; the `finally`
releases the connection on both of those paths. -/
def saveNewsArticleWithRelations (failAt : Nat → Bool)
    (parse : String → Option UTCDateTime) (now : UTCDateTime)
    (a : MarketauxNewsArticle) (db : NewsDB) : SaveOutcome :=
  if failAt 0 then { db := db, error := some 0, released := false }
  else
    match saveNewsBody failAt parse now a { db := db, execCount := 1 } with
    | .ok s => { db := s.db, error := none, released := true }
    | .error i => { db := db, error := some i, released := true }

/-! ### Read-side helpers (per-uuid views of the tables) -/

/-- Categories persisted for one article uuid. -/
def categoriesFor (db : NewsDB) (uuid : String) : List String :=
  (db.news_categories.filter fun c => c.1 == uuid).map (·.2)

/-- Entity rows persisted for one article uuid. -/
def entitiesFor (db : NewsDB) (uuid : String) : List NewsEntityRow :=
  db.news_entities.filter fun e => e.news_uuid == uuid

/-- Highlight rows persisted for one entity id. -/
def highlightsFor (db : NewsDB) (entityId : Nat) : List HighlightRow :=
  db.news_entity_highlights.filter fun h => h.entity_id == entityId

/-- Similar rows persisted for one article uuid. -/
def similarFor (db : NewsDB) (uuid : String) : List SimilarRow :=
  db.news_similar.filter fun s => s.news_uuid == uuid

/-- Read an entity row back into the API shape, joining its highlights from
the given database (as `getNewsByDate` does). -/
def storedEntityView (db : NewsDB) (r : NewsEntityRow) : NewsEntity :=
  { symbol := r.symbol, name := r.name, exchange := r.exchange,
    exchange_long := r.exchange_long, country := r.country, type := r.type,
    industry := r.industry, match_score := r.match_score,
    sentiment_score := r.sentiment_score,
    highlights := (highlightsFor db r.id).map fun h =>
      { highlight := h.highlight, sentiment := h.sentiment,
        highlighted_in := h.highlighted_in } }

/-- Well-formedness of the id counter: every persisted entity id and every
highlight's `entity_id` is below the AUTO_INCREMENT counter.  This is the
standing guarantee of MySQL AUTO_INCREMENT (ids are never reissued) and
holds of the empty database. -/
def WFNewsDB (db : NewsDB) : Prop :=
  (∀ e ∈ db.news_entities, e.id < db.nextEntityId) ∧
  (∀ h ∈ db.news_entity_highlights, h.entity_id < db.nextEntityId)

/-! ### News fetch-and-save cycle (newsService.ts lines 62-157) -/

/-- `DATE(published_at)` on a stored `YYYY-MM-DD HH:MM:SS` string: its first
ten characters. -/
def dateOfDateTime (s : String) : String := s.take 10

/-- `checkNewsExistsForDate` (News.ts lines 556-563): some `news_articles`
row has the requested publish date. -/
def checkNewsExistsForDate (db : NewsDB) (date : String) : Bool :=
  db.news_articles.any fun r => dateOfDateTime r.published_at == date

/-- One `(news_uuid, date)`-keyed upsert into `news_daily_cache` with
`ON DUPLICATE KEY UPDATE is_headline = TRUE, priority = VALUES(priority)`. -/
def upsertHeadlineRow (r : HeadlineCacheRow) (rows : List HeadlineCacheRow) :
    List HeadlineCacheRow :=
  if rows.any (fun x => x.news_uuid == r.news_uuid && x.date == r.date) then
    rows.map fun x =>
      if x.news_uuid == r.news_uuid && x.date == r.date then
        { x with is_headline := true, priority := r.priority }
      else x
  else rows ++ [r]

/-- `markHeadlineNews` (News.ts lines 568-589): no-op on an empty uuid list,
otherwise one multi-row upsert; the priority for position `i` is
`priorities[i]` when defined and `0` otherwise. -/
def markHeadlineNews (newsUuids : List String) (date : String)
    (priorities : List ℤ) (db : NewsDB) : NewsDB :=
  if newsUuids.isEmpty then db
  else
    let newRows : List HeadlineCacheRow := newsUuids.enum.map fun p =>
      { news_uuid := p.2, date := date, is_headline := true,
        priority := priorities.getD p.1 0 }
    { db with news_daily_cache :=
        newRows.foldl (fun rows r => upsertHeadlineRow r rows) db.news_daily_cache }

/-- The priorities computed in newsService.ts lines 132-141: for each
candidate uuid, look the article up in the provider payload and take its
`headlinePriority` (0 when the uuid is not found). -/
def headlinePriorities (data : List MarketauxNewsArticle) (uuids : List String) :
    List ℤ :=
  uuids.map fun uuid =>
    match data.find? (fun a => a.uuid == uuid) with
    | some a => headlinePriority a
    | none => 0

/-- The per-article loop of `fetchAndSaveNews` (newsService.ts lines 86-126),
threading the database and the article index `i` (the failure oracle is
per-article: `oracle i` drives the statements of article `i`'s save).  A
failed save is caught, logged and skipped; a successful save appends the
article to `savedArticles` and, when it qualifies, its uuid to
`headlineUuids`. -/
def processArticles (oracle : Nat → Nat → Bool)
    (parse : String → Option UTCDateTime) (now : UTCDateTime) :
    List MarketauxNewsArticle → Nat → NewsDB →
    NewsDB × List MarketauxNewsArticle × List String
  | [], _, db => (db, [], [])
  | a :: rest, i, db =>
    let r := saveNewsArticleWithRelations (oracle i) parse now a db
    match r.error with
    | some _ => processArticles oracle parse now rest (i + 1) r.db
    | none =>
      let o := processArticles oracle parse now rest (i + 1) r.db
      (o.1, a :: o.2.1,
        if isHeadlineCandidate a then a.uuid :: o.2.2 else o.2.2)

/-- `fetchAndSaveNews` (newsService.ts lines 62-157) after the provider call:
`data` is the provider payload (an empty payload returns immediately), the
articles are saved one by one, and the collected headline uuids are marked
for `date` with their computed priorities (the marking step's own failures
are caught and non-fatal; the successful marking path is modeled).  Returns
the final database and the `savedArticles` list. -/
def fetchAndSaveNews (oracle : Nat → Nat → Bool)
    (parse : String → Option UTCDateTime) (now : UTCDateTime) (date : String)
    (data : List MarketauxNewsArticle) (db : NewsDB) :
    NewsDB × List MarketauxNewsArticle :=
  if data.isEmpty then (db, [])
  else
    let o := processArticles oracle parse now data 0 db
    let db2 :=
      if o.2.2.isEmpty then o.1
      else markHeadlineNews o.2.2 date (headlinePriorities data o.2.2) o.1
    (db2, o.2.1)

/-! ## Straight-line characterization of a successful save

`applySaveArticle` is the effect of the transaction body when no statement
fails; the lemmas below identify a committed `saveNewsArticleWithRelations`
with it. -/

/-- Effect of the entity loop when every statement succeeds. -/
def applyEntityInserts (uuid : String) : List NewsEntity → NewsDB → NewsDB
  | [], db => db
  | e :: rest, db =>
    let p := insertEntityStmt uuid e db
    let db1 := if e.highlights.isEmpty then p.1
      else insertHighlightsStmt p.2 e.highlights p.1
    applyEntityInserts uuid rest db1

/-- Effect of the whole transaction body when every statement succeeds. -/
def applySaveArticle (parse : String → Option UTCDateTime) (now : UTCDateTime)
    (a : MarketauxNewsArticle) (db : NewsDB) : NewsDB :=
  let db1 := insertArticleStmt parse now a db
  let db2 := if a.categories.isEmpty then db1
    else insertCategoriesStmt a.uuid a.categories (deleteCategoriesStmt a.uuid db1)
  let db3 := if a.entities.isEmpty then db2
    else applyEntityInserts a.uuid a.entities (deleteEntitiesStmt a.uuid db2)
  if a.similar.isEmpty then db3
  else insertSimilarStmt parse now a.uuid a.similar (deleteSimilarStmt a.uuid db3)

/-- The entity rows produced for `uuid` by the entity loop, ids counting up
from `k`. -/
def entityRowsFrom (uuid : String) : List NewsEntity → Nat → List NewsEntityRow
  | [], _ => []
  | e :: rest, k => entityRowOf uuid e k :: entityRowsFrom uuid rest (k + 1)

/-- The highlight rows produced by the entity loop, entity ids counting up
from `k`. -/
def highlightRowsFrom : List NewsEntity → Nat → List HighlightRow
  | [], _ => []
  | e :: rest, k => e.highlights.map (highlightRowOf k) ++ highlightRowsFrom rest (k + 1)

/-! ## Concrete fixtures used by witnesses and counterexamples -/

/-- An entity with sentiment −0.5 and match score 10 (the spec's headline
boundary example), carrying one highlight. -/
def sampleEntity : NewsEntity :=
  { symbol := "AAPL", name := "Apple Inc", exchange := "", exchange_long := "",
    country := "us", type := "equity", industry := "Technology",
    match_score := 10, sentiment_score := -1/2,
    highlights := [{ highlight := "Apple fell", sentiment := -1/2,
                     highlighted_in := "main_text" }] }

/-- An entity sitting exactly on the non-qualifying boundary:
`|sentiment| = 0.3`, `match_score = 20`. -/
def lowEntityA : NewsEntity :=
  { symbol := "TSLA", name := "Tesla Inc", exchange := "", exchange_long := "",
    country := "us", type := "equity", industry := "Auto",
    match_score := 20, sentiment_score := 3/10, highlights := [] }

/-- A second non-qualifying entity: `|sentiment| = 0.3`, `match_score = 5`. -/
def lowEntityB : NewsEntity :=
  { symbol := "MSFT", name := "Microsoft", exchange := "", exchange_long := "",
    country := "us", type := "equity", industry := "Technology",
    match_score := 5, sentiment_score := -3/10, highlights := [] }

/-- A similar-article reference. -/
def sampleSimilar : SimilarNews :=
  { uuid := "v1", title := "related piece",
    published_at := "2026-01-02T09:00:00.000000Z", source := "example.com" }

/-- An article qualifying as headline through its sentiment, published on
2026-01-03, with one category, one entity and one similar reference. -/
def sampleArticle : MarketauxNewsArticle :=
  { uuid := "u1", title := "Sample", description := "d", snippet := "s",
    url := "http://example.com/a", image_url := "", language := "en",
    published_at := "2026-01-03T10:22:56.000000Z", source := "example.com",
    categories := ["general"], entities := [sampleEntity],
    similar := [sampleSimilar] }

/-- An article whose entities all have `|sentiment| ≤ 0.3` and
`match_score ≤ 20`. -/
def lowArticle : MarketauxNewsArticle :=
  { sampleArticle with uuid := "u2", entities := [lowEntityA, lowEntityB],
                       categories := [], similar := [] }

/-- A re-save of `sampleArticle`'s uuid with empty categories, entities and
similar lists. -/
def emptyRelArticle : MarketauxNewsArticle :=
  { sampleArticle with title := "Sample v2", categories := [],
                       entities := [], similar := [] }

/-- A parsing oracle recognizing the fixture timestamps. -/
def parseSample : String → Option UTCDateTime := fun s =>
  if s == "2026-01-03T10:22:56.000000Z" then some ⟨2026, 1, 3, 10, 22, 56⟩
  else if s == "2026-01-02T09:00:00.000000Z" then some ⟨2026, 1, 2, 9, 0, 0⟩
  else none

/-- The fixture wall clock: 2026-02-01 12:00:00 UTC. -/
def nowSample : UTCDateTime := ⟨2026, 2, 1, 12, 0, 0⟩

/-- A provider currency response. -/
def sampleRate : CurrencyRateApi :=
  { timeZone := "UTC", exchangeRate := 71/10, bidPrice := 7, askPrice := 72/10 }

/-- A fetch oracle failing exactly the first tracked currency pair. -/
def failFirstFetch : CurrencyPair → Option CurrencyRateApi := fun c =>
  if c.name == "USD/CNY" then none else some sampleRate

/-- A fetch oracle failing exactly the second tracked currency pair. -/
def failSecondFetch : CurrencyPair → Option CurrencyRateApi := fun c =>
  if c.name == "EUR/USD" then none else some sampleRate

/-- A cached `currency_rates` row for 2026-02-01. -/
def sampleCachedRate : CurrencyRateData :=
  { fromCurrency := "USD", toCurrency := "CNY", exchangeRate := 7,
    bidPrice := 7, askPrice := 7, timeZone := "UTC", date := "2026-02-01" }

/-! ## Theorems -/

/-- C8: for every in-memory article list and positive `page` and `limit`,
`getNewsWithPagination` reports the full pre-slice length as `total`, echoes
`page` and `limit`, and its `articles` field is exactly the slice
`[(page-1)*limit, (page-1)*limit + limit)` of the list: position `i` of the
output is position `(page-1)*limit + i` of the input for `i < limit`, and
nothing beyond. -/
theorem getNewsWithPagination_slices {α : Type} (xs : List α) (page limit : Nat)
    (hp : 0 < page) (hl : 0 < limit) :
    (getNewsWithPagination xs page limit).total = xs.length ∧
    (getNewsWithPagination xs page limit).page = page ∧
    (getNewsWithPagination xs page limit).limit = limit ∧
    (getNewsWithPagination xs page limit).articles.length
      = min limit (xs.length - (page - 1) * limit) ∧
    ∀ i : Nat, (getNewsWithPagination xs page limit).articles[i]?
      = if i < limit then xs[(page - 1) * limit + i]? else none := by
  refine ⟨rfl, rfl, rfl, ?_, ?_⟩
  · simp [getNewsWithPagination]
  · intro i
    by_cases hi : i < limit
    · rw [if_pos hi]
      simp only [getNewsWithPagination, Nat.add_sub_cancel_left]
      rw [List.getElem?_take_of_lt hi, List.getElem?_drop]
    · rw [if_neg hi]
      apply List.getElem?_eq_none
      calc (getNewsWithPagination xs page limit).articles.length
          ≤ limit := by simp [getNewsWithPagination]
        _ ≤ i := Nat.le_of_not_lt hi

/-- Witness for C8 at the spec's concrete example: 120 articles, page 2,
limit 50. -/
theorem getNewsWithPagination_slices_witness :
    (getNewsWithPagination (List.range 120) 2 50).total = (List.range 120).length ∧
    (getNewsWithPagination (List.range 120) 2 50).articles.length
      = min 50 ((List.range 120).length - (2 - 1) * 50) :=
  ⟨(getNewsWithPagination_slices (List.range 120) 2 50 (by decide) (by decide)).1,
   (getNewsWithPagination_slices (List.range 120) 2 50 (by decide) (by decide)).2.2.2.1⟩

/-- C10: when `(page-1)*limit` is at least the number of available articles,
`getNewsWithPagination` returns an empty `articles` list while `total` is
still the full pre-slice count and `page`/`limit` echo the request. -/
theorem getNewsWithPagination_out_of_range {α : Type} (xs : List α)
    (page limit : Nat) (h : xs.length ≤ (page - 1) * limit) :
    (getNewsWithPagination xs page limit).articles = [] ∧
    (getNewsWithPagination xs page limit).total = xs.length ∧
    (getNewsWithPagination xs page limit).page = page ∧
    (getNewsWithPagination xs page limit).limit = limit := by
  refine ⟨?_, rfl, rfl, rfl⟩
  simp [getNewsWithPagination, List.drop_eq_nil_of_le h]

/-- Witness for C10: 5 articles, page 3, limit 50. -/
theorem getNewsWithPagination_out_of_range_witness :
    (getNewsWithPagination (List.range 5) 3 50).articles = [] :=
  (getNewsWithPagination_out_of_range (List.range 5) 3 50 (by decide)).1

/-- C5: whenever the persisted state already holds currency rows for today's
date, `checkAndGetCurrencyRates` returns exactly those cached rows, leaves
the database untouched and produces no events — in particular no provider
call and no write. -/
theorem checkAndGetCurrencyRates_cache_hit
    (fetchO : CurrencyPair → Option CurrencyRateApi)
    (saveO : CurrencyPair → Bool) (today : String) (db : List CurrencyRateData)
    (h : getCurrencyRatesByDate db today ≠ []) :
    checkAndGetCurrencyRates fetchO saveO today db
      = { db := db, results := getCurrencyRatesByDate db today, events := [] } := by
  have hne : (getCurrencyRatesByDate db today).isEmpty = false := by
    simpa [List.isEmpty_iff] using h
  simp [checkAndGetCurrencyRates, hne]

/-- Witness for C5: one cached row for 2026-02-01 short-circuits the batch. -/
theorem checkAndGetCurrencyRates_cache_hit_witness :
    checkAndGetCurrencyRates failFirstFetch (fun _ => true) "2026-02-01"
        [sampleCachedRate]
      = { db := [sampleCachedRate],
          results := getCurrencyRatesByDate [sampleCachedRate] "2026-02-01",
          events := [] } :=
  checkAndGetCurrencyRates_cache_hit failFirstFetch (fun _ => true) "2026-02-01"
    [sampleCachedRate] (by decide)

/-! ### Helper lemmas about event traces -/

theorem providerCallNames_nil : providerCallNames [] = [] := rfl

theorem providerCallNames_cons_call (n : String) (l : List BatchEvent) :
    providerCallNames (BatchEvent.providerCall n :: l) = n :: providerCallNames l := rfl

theorem providerCallNames_cons_write (n : String) (l : List BatchEvent) :
    providerCallNames (BatchEvent.dbWrite n :: l) = providerCallNames l := rfl

theorem providerCallNames_append (l₁ l₂ : List BatchEvent) :
    providerCallNames (l₁ ++ l₂) = providerCallNames l₁ ++ providerCallNames l₂ :=
  List.filterMap_append _ _ _

theorem providerCallNames_pauseBlock (P : Prop) [Decidable P] :
    providerCallNames (if P then ([] : List BatchEvent) else [.pause]) = [] := by
  split <;> rfl

theorem count_pause_cons_call (n : String) (l : List BatchEvent) :
    (BatchEvent.providerCall n :: l).count BatchEvent.pause
      = l.count BatchEvent.pause := by
  simp [List.count_cons]

theorem count_pause_cons_write (n : String) (l : List BatchEvent) :
    (BatchEvent.dbWrite n :: l).count BatchEvent.pause
      = l.count BatchEvent.pause := by
  simp [List.count_cons]

theorem count_pause_pauseBlock (P : Prop) [Decidable P] (l : List BatchEvent) :
    ((if P then ([] : List BatchEvent) else [.pause]) ++ l).count BatchEvent.pause
      = (if P then 0 else 1) + l.count BatchEvent.pause := by
  split <;> simp [List.count_append, List.count_cons, Nat.add_comm]

theorem countP_dropLast_cons {α : Type} [DecidableEq α] (p : α → Bool) (c : α)
    (rest : List α) :
    ((c :: rest).dropLast).countP p
      = (if rest = [] then 0 else if p c then 1 else 0) + rest.dropLast.countP p := by
  cases rest with
  | nil => simp
  | cons r rs => simp [List.dropLast_cons₂, List.countP_cons, Nat.add_comm]

/-! ### Loop characterizations for the currency batch -/

theorem currencyLoop_calls (fetchO : CurrencyPair → Option CurrencyRateApi)
    (saveO : CurrencyPair → Bool) (date : String) :
    ∀ (l : List CurrencyPair) (db : List CurrencyRateData),
      providerCallNames (currencyLoop fetchO saveO date l db).events
        = l.map (·.name) := by
  intro l
  induction l with
  | nil => intro db; rfl
  | cons c rest ih =>
    intro db
    cases hf : fetchO c with
    | none =>
      simp [currencyLoop, hf, providerCallNames_cons_call, ih]
    | some rate =>
      cases hs : saveO c with
      | false => simp [currencyLoop, hf, hs, providerCallNames_cons_call, ih]
      | true =>
        simp [currencyLoop, hf, hs, providerCallNames_cons_call,
          providerCallNames_cons_write, providerCallNames_append,
          providerCallNames_pauseBlock, ih]

theorem currencyLoop_results (fetchO : CurrencyPair → Option CurrencyRateApi)
    (saveO : CurrencyPair → Bool) (date : String) :
    ∀ (l : List CurrencyPair) (db : List CurrencyRateData),
      (currencyLoop fetchO saveO date l db).results
        = l.filterMap (fun c =>
            match fetchO c with
            | some rate => if saveO c then some (currencyRow c rate date) else none
            | none => none) := by
  intro l
  induction l with
  | nil => intro db; rfl
  | cons c rest ih =>
    intro db
    cases hf : fetchO c with
    | none => simp [currencyLoop, hf, List.filterMap_cons, ih]
    | some rate =>
      cases hs : saveO c with
      | false => simp [currencyLoop, hf, hs, List.filterMap_cons, ih]
      | true => simp [currencyLoop, hf, hs, List.filterMap_cons, ih]

theorem currencyLoop_pause_count (fetchO : CurrencyPair → Option CurrencyRateApi)
    (saveO : CurrencyPair → Bool) (date : String) :
    ∀ (l : List CurrencyPair) (db : List CurrencyRateData),
      (currencyLoop fetchO saveO date l db).events.count BatchEvent.pause
        = l.dropLast.countP (fun c => (fetchO c).isSome && saveO c) := by
  intro l
  induction l with
  | nil => intro db; rfl
  | cons c rest ih =>
    intro db
    cases hf : fetchO c with
    | none =>
      simp [currencyLoop, hf, count_pause_cons_call, ih, countP_dropLast_cons]
    | some rate =>
      cases hs : saveO c with
      | false =>
        simp [currencyLoop, hf, hs, count_pause_cons_call, ih,
          countP_dropLast_cons]
      | true =>
        simp [currencyLoop, hf, hs, count_pause_cons_call,
          count_pause_cons_write, count_pause_pauseBlock, ih,
          countP_dropLast_cons]
        split <;> simp [List.count_cons]

/-! ### Loop characterizations for the commodity batch -/

theorem commodityLoop_calls (fetchO : CommodityInfo → Option StockQuoteApi)
    (saveO : CommodityInfo → Bool) (date : String) :
    ∀ (l : List CommodityInfo) (db : List CommodityPriceData),
      providerCallNames (commodityLoop fetchO saveO date l db).events
        = l.map (·.name) := by
  intro l
  induction l with
  | nil => intro db; rfl
  | cons c rest ih =>
    intro db
    cases hf : fetchO c with
    | none =>
      simp [commodityLoop, hf, providerCallNames_cons_call, ih]
    | some quote =>
      cases hs : saveO c with
      | false => simp [commodityLoop, hf, hs, providerCallNames_cons_call, ih]
      | true =>
        simp [commodityLoop, hf, hs, providerCallNames_cons_call,
          providerCallNames_cons_write, providerCallNames_append,
          providerCallNames_pauseBlock, ih]

theorem commodityLoop_results (fetchO : CommodityInfo → Option StockQuoteApi)
    (saveO : CommodityInfo → Bool) (date : String) :
    ∀ (l : List CommodityInfo) (db : List CommodityPriceData),
      (commodityLoop fetchO saveO date l db).results
        = l.filterMap (fun c =>
            match fetchO c with
            | some quote => if saveO c then some (commodityRow c quote date) else none
            | none => none) := by
  intro l
  induction l with
  | nil => intro db; rfl
  | cons c rest ih =>
    intro db
    cases hf : fetchO c with
    | none => simp [commodityLoop, hf, List.filterMap_cons, ih]
    | some quote =>
      cases hs : saveO c with
      | false => simp [commodityLoop, hf, hs, List.filterMap_cons, ih]
      | true => simp [commodityLoop, hf, hs, List.filterMap_cons, ih]

theorem commodityLoop_pause_count (fetchO : CommodityInfo → Option StockQuoteApi)
    (saveO : CommodityInfo → Bool) (date : String) :
    ∀ (l : List CommodityInfo) (db : List CommodityPriceData),
      (commodityLoop fetchO saveO date l db).events.count BatchEvent.pause
        = l.dropLast.countP (fun c => (fetchO c).isSome && saveO c) := by
  intro l
  induction l with
  | nil => intro db; rfl
  | cons c rest ih =>
    intro db
    cases hf : fetchO c with
    | none =>
      simp [commodityLoop, hf, count_pause_cons_call, ih, countP_dropLast_cons]
    | some quote =>
      cases hs : saveO c with
      | false =>
        simp [commodityLoop, hf, hs, count_pause_cons_call, ih,
          countP_dropLast_cons]
      | true =>
        simp [commodityLoop, hf, hs, count_pause_cons_call,
          count_pause_cons_write, count_pause_pauseBlock, ih,
          countP_dropLast_cons]
        split <;> simp [List.count_cons]

/-- C6: in a cache-miss batch fetch (currency and commodity alike), a
provider or persistence failure for one instrument does not abort the batch:
every instrument of the fixed tracked list is attempted (one provider call
each, in order), and the returned results are exactly those of the
instruments whose fetch and save both succeeded, in order.  In particular,
with the second of the four currency pairs failing, results for the first,
third and fourth pairs are still returned and all four pairs were called. -/
theorem batch_fetch_partial_failure
    (fetchO : CurrencyPair → Option CurrencyRateApi) (saveO : CurrencyPair → Bool)
    (fetchC : CommodityInfo → Option StockQuoteApi) (saveC : CommodityInfo → Bool)
    (date : String) (db : List CurrencyRateData) (dbc : List CommodityPriceData) :
    (providerCallNames (fetchAndSaveCurrencyRates fetchO saveO date db).events
        = MAIN_CURRENCIES.map (·.name) ∧
      (fetchAndSaveCurrencyRates fetchO saveO date db).results
        = MAIN_CURRENCIES.filterMap (fun c =>
            match fetchO c with
            | some rate => if saveO c then some (currencyRow c rate date) else none
            | none => none)) ∧
    (providerCallNames (fetchAndSaveCommodityPrices fetchC saveC date dbc).events
        = POPULAR_COMMODITIES.map (·.name) ∧
      (fetchAndSaveCommodityPrices fetchC saveC date dbc).results
        = POPULAR_COMMODITIES.filterMap (fun c =>
            match fetchC c with
            | some quote => if saveC c then some (commodityRow c quote date) else none
            | none => none)) ∧
    ((fetchAndSaveCurrencyRates failSecondFetch (fun _ => true) "2026-02-01"
          []).results.map (fun r => r.fromCurrency ++ "/" ++ r.toCurrency)
        = ["USD/CNY", "GBP/USD", "USD/JPY"] ∧
      providerCallNames (fetchAndSaveCurrencyRates failSecondFetch (fun _ => true)
          "2026-02-01" []).events
        = ["USD/CNY", "EUR/USD", "GBP/USD", "USD/JPY"]) := by
  refine ⟨⟨?_, ?_⟩, ⟨?_, ?_⟩, by decide, by decide⟩
  · exact currencyLoop_calls fetchO saveO date MAIN_CURRENCIES db
  · exact currencyLoop_results fetchO saveO date MAIN_CURRENCIES db
  · exact commodityLoop_calls fetchC saveC date POPULAR_COMMODITIES dbc
  · exact commodityLoop_results fetchC saveC date POPULAR_COMMODITIES dbc

/-- C7 (amended): the 12-second pause is taken exactly after each instrument
that is not in last position in the tracked list and whose fetch and save
both succeeded; a failed instrument's catch skips the pause, and no pause
follows the last instrument. -/
theorem pause_only_after_success
    (fetchO : CurrencyPair → Option CurrencyRateApi) (saveO : CurrencyPair → Bool)
    (fetchC : CommodityInfo → Option StockQuoteApi) (saveC : CommodityInfo → Bool)
    (date : String) (db : List CurrencyRateData) (dbc : List CommodityPriceData) :
    (fetchAndSaveCurrencyRates fetchO saveO date db).events.count BatchEvent.pause
      = MAIN_CURRENCIES.dropLast.countP (fun c => (fetchO c).isSome && saveO c) ∧
    (fetchAndSaveCommodityPrices fetchC saveC date dbc).events.count BatchEvent.pause
      = POPULAR_COMMODITIES.dropLast.countP (fun c => (fetchC c).isSome && saveC c) :=
  ⟨currencyLoop_pause_count fetchO saveO date MAIN_CURRENCIES db,
   commodityLoop_pause_count fetchC saveC date POPULAR_COMMODITIES dbc⟩

/-! ### Transaction-body characterization lemmas -/

theorem execStmtU_ok {failAt : Nat → Bool} {f : NewsDB → NewsDB} {s s1 : TxState}
    (h : execStmtU failAt f s = .ok s1) : s1.db = f s.db := by
  unfold execStmtU at h
  split at h
  · cases h
  · cases h
    rfl

theorem execStmtV_ok {failAt : Nat → Bool} {f : NewsDB → NewsDB × Nat}
    {s : TxState} {p : TxState × Nat}
    (h : execStmtV failAt f s = .ok p) : p.1.db = (f s.db).1 ∧ p.2 = (f s.db).2 := by
  unfold execStmtV at h
  split at h
  · cases h
  · cases h
    exact ⟨rfl, rfl⟩

theorem saveEntitiesLoop_ok {failAt : Nat → Bool} {uuid : String} :
    ∀ {es : List NewsEntity} {s s1 : TxState},
      saveEntitiesLoop failAt uuid es s = .ok s1 →
      s1.db = applyEntityInserts uuid es s.db := by
  intro es
  induction es with
  | nil =>
    intro s s1 h
    cases h
    rfl
  | cons e rest ih =>
    intro s s1 h
    rw [saveEntitiesLoop] at h
    split at h
    · cases h
    · rename_i p hv
      split at h
      · cases h
      · rename_i s2 hif
        obtain ⟨hpdb, hpid⟩ := execStmtV_ok hv
        have hs2 : s2.db = if e.highlights.isEmpty then p.1.db
            else insertHighlightsStmt p.2 e.highlights p.1.db := by
          split at hif
          · rename_i hcond
            cases hif
            rw [if_pos hcond]
          · rename_i hcond
            rw [if_neg hcond]
            exact execStmtU_ok hif
        rw [ih h]
        simp only [applyEntityInserts]
        congr 1
        rw [hs2, hpdb, hpid]

theorem saveNewsBody_ok {failAt : Nat → Bool} {parse : String → Option UTCDateTime}
    {now : UTCDateTime} {a : MarketauxNewsArticle} {s s1 : TxState}
    (h : saveNewsBody failAt parse now a s = .ok s1) :
    s1.db = applySaveArticle parse now a s.db := by
  rw [saveNewsBody] at h
  split at h
  · cases h
  rename_i t1 h0
  have e0 := execStmtU_ok h0
  split at h
  · cases h
  rename_i t3 hcat
  have e3 : t3.db = (if a.categories.isEmpty then t1.db
      else insertCategoriesStmt a.uuid a.categories
        (deleteCategoriesStmt a.uuid t1.db)) := by
    split at hcat
    · rename_i hcond
      cases hcat
      rw [if_pos hcond]
    · rename_i hcond
      rw [if_neg hcond]
      split at hcat
      · cases hcat
      · rename_i t2a h1
        rw [execStmtU_ok hcat, execStmtU_ok h1]
  split at h
  · cases h
  rename_i t5 hent
  have e5 : t5.db = (if a.entities.isEmpty then t3.db
      else applyEntityInserts a.uuid a.entities (deleteEntitiesStmt a.uuid t3.db)) := by
    split at hent
    · rename_i hcond
      cases hent
      rw [if_pos hcond]
    · rename_i hcond
      rw [if_neg hcond]
      split at hent
      · cases hent
      · rename_i t4 h4
        rw [saveEntitiesLoop_ok hent, execStmtU_ok h4]
  split at h
  · rename_i hcond
    cases h
    rw [e5, e3, e0]
    simp only [applySaveArticle]
    rw [if_pos hcond]
  · rename_i hcond
    split at h
    · cases h
    · rename_i t6 h5
      rw [execStmtU_ok h, execStmtU_ok h5, e5, e3, e0]
      simp only [applySaveArticle]
      rw [if_neg hcond]

theorem execStmtU_noFail (f : NewsDB → NewsDB) (s : TxState) :
    execStmtU (fun _ => false) f s = .ok { db := f s.db, execCount := s.execCount + 1 } := rfl

theorem execStmtV_noFail (f : NewsDB → NewsDB × Nat) (s : TxState) :
    execStmtV (fun _ => false) f s
      = .ok ({ db := (f s.db).1, execCount := s.execCount + 1 }, (f s.db).2) := rfl

theorem saveEntitiesLoop_noFail (uuid : String) :
    ∀ (es : List NewsEntity) (s : TxState),
      ∃ s1, saveEntitiesLoop (fun _ => false) uuid es s = .ok s1 := by
  intro es
  induction es with
  | nil => intro s; exact ⟨s, rfl⟩
  | cons e rest ih =>
    intro s
    rw [saveEntitiesLoop]
    split
    · rename_i i hv
      rw [execStmtV_noFail] at hv
      cases hv
    · rename_i p hv
      split
      · rename_i i hif
        exfalso
        by_cases hh : e.highlights.isEmpty
        · rw [if_pos hh] at hif
          cases hif
        · rw [if_neg hh, execStmtU_noFail] at hif
          cases hif
      · rename_i s2 hif
        exact ih s2

theorem saveNewsBody_noFail (parse : String → Option UTCDateTime)
    (now : UTCDateTime) (a : MarketauxNewsArticle) (s : TxState) :
    ∃ s1, saveNewsBody (fun _ => false) parse now a s = .ok s1 := by
  rw [saveNewsBody]
  split
  · rename_i i h0
    rw [execStmtU_noFail] at h0
    cases h0
  rename_i t1 h0
  split
  · rename_i i hcat
    exfalso
    by_cases hc : a.categories.isEmpty
    · rw [if_pos hc] at hcat
      cases hcat
    · rw [if_neg hc] at hcat
      split at hcat
      · rename_i j h1
        rw [execStmtU_noFail] at h1
        cases h1
      · rw [execStmtU_noFail] at hcat
        cases hcat
  rename_i t3 hcat
  split
  · rename_i i hent
    exfalso
    by_cases he : a.entities.isEmpty
    · rw [if_pos he] at hent
      cases hent
    · rw [if_neg he] at hent
      split at hent
      · rename_i j h4
        rw [execStmtU_noFail] at h4
        cases h4
      · rename_i s4 h4
        obtain ⟨s9, hs9⟩ := saveEntitiesLoop_noFail a.uuid a.entities s4
        rw [hs9] at hent
        cases hent
  rename_i t5 hent
  by_cases hs : a.similar.isEmpty
  · rw [if_pos hs]
    exact ⟨t5, rfl⟩
  · rw [if_neg hs]
    split
    · rename_i i h5
      rw [execStmtU_noFail] at h5
      cases h5
    · exact ⟨_, execStmtU_noFail _ _⟩

theorem save_noFail_error_none (parse : String → Option UTCDateTime)
    (now : UTCDateTime) (a : MarketauxNewsArticle) (db : NewsDB) :
    (saveNewsArticleWithRelations (fun _ => false) parse now a db).error = none := by
  obtain ⟨s1, h⟩ := saveNewsBody_noFail parse now a { db := db, execCount := 1 }
  simp [saveNewsArticleWithRelations, h]

theorem save_ok_db {failAt : Nat → Bool} {parse : String → Option UTCDateTime}
    {now : UTCDateTime} {a : MarketauxNewsArticle} {db : NewsDB}
    (h : (saveNewsArticleWithRelations failAt parse now a db).error = none) :
    (saveNewsArticleWithRelations failAt parse now a db).db
      = applySaveArticle parse now a db := by
  by_cases hbegin : failAt 0
  · simp [saveNewsArticleWithRelations, hbegin] at h
  · cases hb : saveNewsBody failAt parse now a { db := db, execCount := 1 } with
    | ok s =>
      have := saveNewsBody_ok hb
      simp [saveNewsArticleWithRelations, hbegin, hb, this]
    | error i =>
      simp [saveNewsArticleWithRelations, hbegin, hb] at h

theorem save_db_cases (failAt : Nat → Bool) (parse : String → Option UTCDateTime)
    (now : UTCDateTime) (a : MarketauxNewsArticle) (db : NewsDB) :
    (saveNewsArticleWithRelations failAt parse now a db).db = db ∨
    (saveNewsArticleWithRelations failAt parse now a db).db
      = applySaveArticle parse now a db := by
  by_cases hbegin : failAt 0
  · left
    simp [saveNewsArticleWithRelations, hbegin]
  · cases hb : saveNewsBody failAt parse now a { db := db, execCount := 1 } with
    | ok s =>
      right
      have := saveNewsBody_ok hb
      simp [saveNewsArticleWithRelations, hbegin, hb, this]
    | error i =>
      left
      simp [saveNewsArticleWithRelations, hbegin, hb]

theorem applyEntityInserts_eq (uuid : String) :
    ∀ (es : List NewsEntity) (db : NewsDB),
      applyEntityInserts uuid es db =
        { db with
            news_entities := db.news_entities ++ entityRowsFrom uuid es db.nextEntityId,
            news_entity_highlights :=
              db.news_entity_highlights ++ highlightRowsFrom es db.nextEntityId,
            nextEntityId := db.nextEntityId + es.length } := by
  intro es
  induction es with
  | nil =>
    intro db
    cases db
    simp [applyEntityInserts, entityRowsFrom, highlightRowsFrom]
  | cons e rest ih =>
    intro db
    by_cases hh : e.highlights.isEmpty
    · have hh2 : e.highlights = [] := List.isEmpty_iff.mp hh
      simp only [applyEntityInserts, insertEntityStmt, hh, ite_true, ih,
        entityRowsFrom, highlightRowsFrom, hh2, List.map_nil, List.nil_append,
        List.append_assoc, List.singleton_append, List.length_cons]
      cases db
      simp [Nat.add_comm, Nat.add_assoc, Nat.add_left_comm]
    · simp only [applyEntityInserts, insertEntityStmt, insertHighlightsStmt, hh,
        ite_false, ih, entityRowsFrom, highlightRowsFrom,
        List.append_assoc, List.singleton_append, List.length_cons]
      cases db
      simp [Nat.add_comm, Nat.add_assoc, Nat.add_left_comm]

theorem applySaveArticle_news_articles (parse : String → Option UTCDateTime)
    (now : UTCDateTime) (a : MarketauxNewsArticle) (db : NewsDB) :
    (applySaveArticle parse now a db).news_articles
      = upsertNewsArticleRow (articleRowOf parse now a) db.news_articles := by
  unfold applySaveArticle
  by_cases hc : a.categories.isEmpty <;> by_cases he : a.entities.isEmpty <;>
    by_cases hs : a.similar.isEmpty <;>
      simp [hc, he, hs, insertArticleStmt, insertCategoriesStmt,
        deleteCategoriesStmt, deleteEntitiesStmt, insertSimilarStmt,
        deleteSimilarStmt, applyEntityInserts_eq]

theorem applySaveArticle_news_daily_cache (parse : String → Option UTCDateTime)
    (now : UTCDateTime) (a : MarketauxNewsArticle) (db : NewsDB) :
    (applySaveArticle parse now a db).news_daily_cache = db.news_daily_cache := by
  unfold applySaveArticle
  by_cases hc : a.categories.isEmpty <;> by_cases he : a.entities.isEmpty <;>
    by_cases hs : a.similar.isEmpty <;>
      simp [hc, he, hs, insertArticleStmt, insertCategoriesStmt,
        deleteCategoriesStmt, deleteEntitiesStmt, insertSimilarStmt,
        deleteSimilarStmt, applyEntityInserts_eq]

theorem upsertNewsArticleRow_self_mem (r : NewsArticleRow)
    (rows : List NewsArticleRow) : r ∈ upsertNewsArticleRow r rows := by
  unfold upsertNewsArticleRow
  split
  · rename_i hany
    obtain ⟨x, hx, hxe⟩ := List.any_eq_true.mp hany
    exact List.mem_map.mpr ⟨x, hx, by simp [hxe]⟩
  · exact List.mem_append.mpr (Or.inr (List.mem_singleton.mpr rfl))

theorem upsertNewsArticleRow_mem_uuid (r : NewsArticleRow)
    (rows : List NewsArticleRow) (u : String)
    (h : ∃ y ∈ rows, y.uuid = u) :
    ∃ y ∈ upsertNewsArticleRow r rows, y.uuid = u := by
  obtain ⟨y, hy, hyu⟩ := h
  unfold upsertNewsArticleRow
  split
  · by_cases hcase : y.uuid == r.uuid
    · refine ⟨r, List.mem_map.mpr ⟨y, hy, by simp [hcase]⟩, ?_⟩
      have : y.uuid = r.uuid := by simpa using hcase
      rw [← this, hyu]
    · refine ⟨y, List.mem_map.mpr ⟨y, hy, by simp [hcase]⟩, hyu⟩
  · exact ⟨y, List.mem_append.mpr (Or.inl hy), hyu⟩

theorem save_preserves_article_uuid {failAt : Nat → Bool}
    {parse : String → Option UTCDateTime} {now : UTCDateTime}
    {a : MarketauxNewsArticle} {db : NewsDB} {u : String}
    (h : ∃ y ∈ db.news_articles, y.uuid = u) :
    ∃ y ∈ (saveNewsArticleWithRelations failAt parse now a db).db.news_articles,
      y.uuid = u := by
  rcases save_db_cases failAt parse now a db with hdb | hdb
  · rw [hdb]
    exact h
  · rw [hdb, applySaveArticle_news_articles]
    exact upsertNewsArticleRow_mem_uuid _ _ _ h

theorem save_ok_article_mem {failAt : Nat → Bool}
    {parse : String → Option UTCDateTime} {now : UTCDateTime}
    {a : MarketauxNewsArticle} {db : NewsDB}
    (h : (saveNewsArticleWithRelations failAt parse now a db).error = none) :
    ∃ y ∈ (saveNewsArticleWithRelations failAt parse now a db).db.news_articles,
      y.uuid = a.uuid ∧ y.published_at = convertToMySQLDateTime parse now a.published_at := by
  rw [save_ok_db h, applySaveArticle_news_articles]
  exact ⟨articleRowOf parse now a, upsertNewsArticleRow_self_mem _ _, rfl, rfl⟩

theorem save_news_daily_cache (failAt : Nat → Bool)
    (parse : String → Option UTCDateTime) (now : UTCDateTime)
    (a : MarketauxNewsArticle) (db : NewsDB) :
    (saveNewsArticleWithRelations failAt parse now a db).db.news_daily_cache
      = db.news_daily_cache := by
  rcases save_db_cases failAt parse now a db with hdb | hdb
  · rw [hdb]
  · rw [hdb, applySaveArticle_news_daily_cache]

/-! ### Relation-replacement lemmas for a committed save -/

theorem applySaveArticle_categories (parse : String → Option UTCDateTime)
    (now : UTCDateTime) (a : MarketauxNewsArticle) (db : NewsDB)
    (hc : ¬a.categories.isEmpty) :
    (applySaveArticle parse now a db).news_categories
      = db.news_categories.filter (fun c => !(c.1 == a.uuid))
          ++ a.categories.map (fun c => (a.uuid, c)) := by
  unfold applySaveArticle
  by_cases he : a.entities.isEmpty <;> by_cases hs : a.similar.isEmpty <;>
    simp [hc, he, hs, insertArticleStmt, insertCategoriesStmt,
      deleteCategoriesStmt, deleteEntitiesStmt, insertSimilarStmt,
      deleteSimilarStmt, applyEntityInserts_eq]

theorem applySaveArticle_categoriesFor (parse : String → Option UTCDateTime)
    (now : UTCDateTime) (a : MarketauxNewsArticle) (db : NewsDB)
    (hc : ¬a.categories.isEmpty) :
    categoriesFor (applySaveArticle parse now a db) a.uuid = a.categories := by
  rw [categoriesFor, applySaveArticle_categories parse now a db hc,
    List.filter_append]
  have h1 : (db.news_categories.filter fun c => !(c.1 == a.uuid)).filter
      (fun c => c.1 == a.uuid) = [] := by
    simp [List.filter_filter]
  have h2 : (a.categories.map fun c => (a.uuid, c)).filter
      (fun c => c.1 == a.uuid) = a.categories.map fun c => (a.uuid, c) := by
    apply List.filter_eq_self.mpr
    intro x hx
    obtain ⟨c, _, rfl⟩ := List.mem_map.mp hx
    simp
  rw [h1, h2, List.nil_append, List.map_map]
  simp [Function.comp]

theorem applySaveArticle_similar (parse : String → Option UTCDateTime)
    (now : UTCDateTime) (a : MarketauxNewsArticle) (db : NewsDB)
    (hs : ¬a.similar.isEmpty) :
    (applySaveArticle parse now a db).news_similar
      = db.news_similar.filter (fun r => !(r.news_uuid == a.uuid))
          ++ a.similar.map (similarRowOf parse now a.uuid) := by
  unfold applySaveArticle
  by_cases hc : a.categories.isEmpty <;> by_cases he : a.entities.isEmpty <;>
    simp [hc, he, hs, insertArticleStmt, insertCategoriesStmt,
      deleteCategoriesStmt, deleteEntitiesStmt, insertSimilarStmt,
      deleteSimilarStmt, applyEntityInserts_eq]

theorem applySaveArticle_similarFor (parse : String → Option UTCDateTime)
    (now : UTCDateTime) (a : MarketauxNewsArticle) (db : NewsDB)
    (hs : ¬a.similar.isEmpty) :
    similarFor (applySaveArticle parse now a db) a.uuid
      = a.similar.map (similarRowOf parse now a.uuid) := by
  rw [similarFor, applySaveArticle_similar parse now a db hs, List.filter_append]
  have h1 : (db.news_similar.filter fun r => !(r.news_uuid == a.uuid)).filter
      (fun r => r.news_uuid == a.uuid) = [] := by
    simp [List.filter_filter]
  have h2 : (a.similar.map (similarRowOf parse now a.uuid)).filter
      (fun r => r.news_uuid == a.uuid)
      = a.similar.map (similarRowOf parse now a.uuid) := by
    apply List.filter_eq_self.mpr
    intro x hx
    obtain ⟨r, _, rfl⟩ := List.mem_map.mp hx
    simp [similarRowOf]
  rw [h1, h2, List.nil_append]

theorem entityRowsFrom_uuid (uuid : String) :
    ∀ (es : List NewsEntity) (k : Nat), ∀ r ∈ entityRowsFrom uuid es k,
      r.news_uuid = uuid := by
  intro es
  induction es with
  | nil => intro k r hr; cases hr
  | cons e rest ih =>
    intro k r hr
    rcases List.mem_cons.mp hr with hr0 | hr1
    · rw [hr0]
      rfl
    · exact ih (k + 1) r hr1

theorem entityRowsFrom_getElem (uuid : String) :
    ∀ (es : List NewsEntity) (k i : Nat),
      (entityRowsFrom uuid es k)[i]?
        = (es[i]?).map (fun e => entityRowOf uuid e (k + i)) := by
  intro es
  induction es with
  | nil => intro k i; simp [entityRowsFrom]
  | cons e rest ih =>
    intro k i
    cases i with
    | zero => simp [entityRowsFrom]
    | succ j =>
      have hkj : k + 1 + j = k + (j + 1) := by omega
      simp only [entityRowsFrom, List.getElem?_cons_succ, ih, hkj]

theorem highlightRowsFrom_le :
    ∀ (es : List NewsEntity) (k : Nat), ∀ r ∈ highlightRowsFrom es k,
      k ≤ r.entity_id := by
  intro es
  induction es with
  | nil => intro k r hr; cases hr
  | cons e rest ih =>
    intro k r hr
    rcases List.mem_append.mp hr with hr0 | hr1
    · obtain ⟨hh, _, rfl⟩ := List.mem_map.mp hr0
      exact Nat.le_refl k
    · exact Nat.le_trans (Nat.le_succ k) (ih (k + 1) r hr1)

theorem highlightRowsFrom_filter :
    ∀ (es : List NewsEntity) (k j : Nat) (e : NewsEntity), es[j]? = some e →
      (highlightRowsFrom es k).filter (fun h => h.entity_id == k + j)
        = e.highlights.map (highlightRowOf (k + j)) := by
  intro es
  induction es with
  | nil => intro k j e he; simp at he
  | cons e1 rest ih =>
    intro k j e he
    cases j with
    | zero =>
      rw [List.getElem?_cons_zero] at he
      cases he
      rw [highlightRowsFrom, List.filter_append]
      have h1 : (e1.highlights.map (highlightRowOf k)).filter
          (fun h => h.entity_id == k + 0) = e1.highlights.map (highlightRowOf k) := by
        apply List.filter_eq_self.mpr
        intro x hx
        obtain ⟨hh, _, rfl⟩ := List.mem_map.mp hx
        simp [highlightRowOf]
      have h2 : (highlightRowsFrom rest (k + 1)).filter
          (fun h => h.entity_id == k + 0) = [] := by
        apply List.filter_eq_nil.mpr
        intro x hx
        have := highlightRowsFrom_le rest (k + 1) x hx
        simp only [beq_iff_eq]
        omega
      rw [h1, h2, List.append_nil]
      simp
    | succ j1 =>
      rw [List.getElem?_cons_succ] at he
      rw [highlightRowsFrom, List.filter_append]
      have h1 : (e1.highlights.map (highlightRowOf k)).filter
          (fun h => h.entity_id == k + (j1 + 1)) = [] := by
        apply List.filter_eq_nil.mpr
        intro x hx
        obtain ⟨hh, _, rfl⟩ := List.mem_map.mp hx
        simp only [highlightRowOf, beq_iff_eq]
        omega
      have hk : k + (j1 + 1) = (k + 1) + j1 := by omega
      rw [h1, List.nil_append, hk, ih (k + 1) j1 e he]

theorem highlightView_rowOf (id : Nat) (h : EntityHighlight) :
    ({ highlight := (highlightRowOf id h).highlight,
       sentiment := (highlightRowOf id h).sentiment,
       highlighted_in := (highlightRowOf id h).highlighted_in } : EntityHighlight) = h := by
  cases h
  rfl

theorem entitiesView_congr (dbA dbB : NewsDB) (uuid : String)
    (hE : dbA.news_entities = dbB.news_entities)
    (hH : dbA.news_entity_highlights = dbB.news_entity_highlights) :
    (entitiesFor dbA uuid).map (storedEntityView dbA)
      = (entitiesFor dbB uuid).map (storedEntityView dbB) := by
  unfold entitiesFor storedEntityView highlightsFor
  rw [hE, hH]

theorem applyEntityInserts_entities_view (uuid : String) (es : List NewsEntity)
    (db : NewsDB)
    (hclean : db.news_entities.filter (fun e => e.news_uuid == uuid) = [])
    (hwfh : ∀ h ∈ db.news_entity_highlights, h.entity_id < db.nextEntityId) :
    (entitiesFor (applyEntityInserts uuid es db) uuid).map
      (storedEntityView (applyEntityInserts uuid es db)) = es := by
  rw [applyEntityInserts_eq]
  have hent : entitiesFor
      { db with
          news_entities := db.news_entities ++ entityRowsFrom uuid es db.nextEntityId,
          news_entity_highlights :=
            db.news_entity_highlights ++ highlightRowsFrom es db.nextEntityId,
          nextEntityId := db.nextEntityId + es.length } uuid
      = entityRowsFrom uuid es db.nextEntityId := by
    rw [entitiesFor]
    simp only []
    rw [List.filter_append, hclean, List.nil_append]
    apply List.filter_eq_self.mpr
    intro r hr
    simp [entityRowsFrom_uuid uuid es db.nextEntityId r hr]
  rw [hent]
  apply List.ext_getElem?
  intro i
  rw [List.getElem?_map, entityRowsFrom_getElem]
  cases he : es[i]? with
  | none => simp
  | some e =>
    simp only [Option.map_some']
    congr 1
    have hhl : highlightsFor
        { db with
            news_entities := db.news_entities ++ entityRowsFrom uuid es db.nextEntityId,
            news_entity_highlights :=
              db.news_entity_highlights ++ highlightRowsFrom es db.nextEntityId,
            nextEntityId := db.nextEntityId + es.length } (db.nextEntityId + i)
        = e.highlights.map (highlightRowOf (db.nextEntityId + i)) := by
      rw [highlightsFor]
      simp only []
      rw [List.filter_append]
      have h1 : db.news_entity_highlights.filter
          (fun h => h.entity_id == db.nextEntityId + i) = [] := by
        apply List.filter_eq_nil.mpr
        intro x hx
        have := hwfh x hx
        simp only [beq_iff_eq]
        omega
      rw [h1, List.nil_append, highlightRowsFrom_filter es db.nextEntityId i e he]
    rw [storedEntityView]
    simp only [entityRowOf]
    rw [hhl]
    clear hhl he
    cases e
    simp only [NewsEntity.mk.injEq, true_and, List.map_map]
    exact List.map_id _

theorem applySaveArticle_entities_view (parse : String → Option UTCDateTime)
    (now : UTCDateTime) (a : MarketauxNewsArticle) (db : NewsDB)
    (hwf : WFNewsDB db) (he : ¬a.entities.isEmpty) :
    (entitiesFor (applySaveArticle parse now a db) a.uuid).map
      (storedEntityView (applySaveArticle parse now a db)) = a.entities := by
  unfold applySaveArticle
  simp only []
  rw [if_neg he]
  set db2 := (if a.categories.isEmpty then insertArticleStmt parse now a db
    else insertCategoriesStmt a.uuid a.categories
      (deleteCategoriesStmt a.uuid (insertArticleStmt parse now a db))) with hdb2
  set db3 := applyEntityInserts a.uuid a.entities (deleteEntitiesStmt a.uuid db2)
    with hdb3
  have hview : (entitiesFor (if a.similar.isEmpty then db3
      else insertSimilarStmt parse now a.uuid a.similar
        (deleteSimilarStmt a.uuid db3)) a.uuid).map
        (storedEntityView (if a.similar.isEmpty then db3
          else insertSimilarStmt parse now a.uuid a.similar
            (deleteSimilarStmt a.uuid db3)))
      = (entitiesFor db3 a.uuid).map (storedEntityView db3) := by
    by_cases hs : a.similar.isEmpty
    · rw [if_pos hs]
    · rw [if_neg hs]
      exact entitiesView_congr _ _ _
        (by simp [insertSimilarStmt, deleteSimilarStmt])
        (by simp [insertSimilarStmt, deleteSimilarStmt])
  rw [hview, hdb3]
  have hclean : (deleteEntitiesStmt a.uuid db2).news_entities.filter
      (fun e => e.news_uuid == a.uuid) = [] := by
    simp [deleteEntitiesStmt, List.filter_filter]
  have hpres : (deleteEntitiesStmt a.uuid db2).news_entity_highlights
        = db.news_entity_highlights ∧
      (deleteEntitiesStmt a.uuid db2).nextEntityId = db.nextEntityId := by
    by_cases hcc : a.categories.isEmpty <;>
      simp [hdb2, deleteEntitiesStmt, insertArticleStmt, insertCategoriesStmt,
        deleteCategoriesStmt, hcc]
  have hwfh : ∀ x ∈ (deleteEntitiesStmt a.uuid db2).news_entity_highlights,
      x.entity_id < (deleteEntitiesStmt a.uuid db2).nextEntityId := by
    intro x hx
    rw [hpres.1] at hx
    rw [hpres.2]
    exact hwf.2 x hx
  exact applyEntityInserts_entities_view a.uuid a.entities
    (deleteEntitiesStmt a.uuid db2) hclean hwfh

/-- C9: `convertToMySQLDateTime` never fails — for every input the parse
oracle rejects it returns the current UTC wall-clock time in
`YYYY-MM-DD HH:MM:SS` form, and an article with such an unparseable publish
timestamp is persisted (no statement failing) with the save-time timestamp
in its `news_articles` row rather than the save raising an error. -/
theorem convertToMySQLDateTime_fallback (parse : String → Option UTCDateTime)
    (now : UTCDateTime) (s : String) (h : parse s = none) :
    convertToMySQLDateTime parse now s = formatMySQLDateTime now ∧
    ∀ (a : MarketauxNewsArticle) (db : NewsDB), a.published_at = s →
      (saveNewsArticleWithRelations (fun _ => false) parse now a db).error = none ∧
      ∃ y ∈ (saveNewsArticleWithRelations (fun _ => false) parse now a
          db).db.news_articles,
        y.uuid = a.uuid ∧ y.published_at = formatMySQLDateTime now := by
  have h1 : convertToMySQLDateTime parse now s = formatMySQLDateTime now := by
    unfold convertToMySQLDateTime
    rw [h]
  refine ⟨h1, ?_⟩
  intro a db hpub
  have herr := save_noFail_error_none parse now a db
  refine ⟨herr, ?_⟩
  obtain ⟨y, hy, hyu, hypub⟩ := save_ok_article_mem herr
  exact ⟨y, hy, hyu, by rw [hypub, hpub, h1]⟩

/-- Witness for C9: a parse oracle rejecting everything, at the string
"not-a-date". -/
theorem convertToMySQLDateTime_fallback_witness :
    convertToMySQLDateTime (fun _ => none) nowSample "not-a-date"
      = formatMySQLDateTime nowSample :=
  (convertToMySQLDateTime_fallback (fun _ => none) nowSample "not-a-date" rfl).1

/-- C2 (amended): after a successful `saveNewsArticleWithRelations` call in
which the article's categories, entities and similar lists are each
non-empty, the persisted categories, entities (with their highlights, read
back through the stored-view join) and similar rows for that uuid are
exactly those of the article just saved — no stale rows from an earlier
save of the same uuid survive.  (The unamended claim fails for empty lists:
see the counterexample.) -/
theorem save_replaces_nonempty_relations (failAt : Nat → Bool)
    (parse : String → Option UTCDateTime) (now : UTCDateTime)
    (a : MarketauxNewsArticle) (db : NewsDB)
    (hwf : WFNewsDB db) (hc : a.categories ≠ []) (he : a.entities ≠ [])
    (hsim : a.similar ≠ [])
    (hok : (saveNewsArticleWithRelations failAt parse now a db).error = none) :
    categoriesFor (saveNewsArticleWithRelations failAt parse now a db).db a.uuid
      = a.categories ∧
    (entitiesFor (saveNewsArticleWithRelations failAt parse now a db).db
        a.uuid).map
      (storedEntityView (saveNewsArticleWithRelations failAt parse now a db).db)
      = a.entities ∧
    similarFor (saveNewsArticleWithRelations failAt parse now a db).db a.uuid
      = a.similar.map (similarRowOf parse now a.uuid) := by
  rw [save_ok_db hok]
  have hc1 : ¬a.categories.isEmpty := by simpa [List.isEmpty_iff] using hc
  have he1 : ¬a.entities.isEmpty := by simpa [List.isEmpty_iff] using he
  have hs1 : ¬a.similar.isEmpty := by simpa [List.isEmpty_iff] using hsim
  exact ⟨applySaveArticle_categoriesFor parse now a db hc1,
    applySaveArticle_entities_view parse now a db hwf he1,
    applySaveArticle_similarFor parse now a db hs1⟩

/-- Witness for C2 (amended): saving `sampleArticle` (one category, one
entity with one highlight, one similar reference) into the empty database. -/
theorem save_replaces_nonempty_relations_witness :
    categoriesFor (saveNewsArticleWithRelations (fun _ => false) parseSample
        nowSample sampleArticle emptyNewsDB).db sampleArticle.uuid
      = sampleArticle.categories ∧
    (entitiesFor (saveNewsArticleWithRelations (fun _ => false) parseSample
        nowSample sampleArticle emptyNewsDB).db sampleArticle.uuid).map
      (storedEntityView (saveNewsArticleWithRelations (fun _ => false)
        parseSample nowSample sampleArticle emptyNewsDB).db)
      = sampleArticle.entities ∧
    similarFor (saveNewsArticleWithRelations (fun _ => false) parseSample
        nowSample sampleArticle emptyNewsDB).db sampleArticle.uuid
      = sampleArticle.similar.map (similarRowOf parseSample nowSample
          sampleArticle.uuid) :=
  save_replaces_nonempty_relations (fun _ => false) parseSample nowSample
    sampleArticle emptyNewsDB
    ⟨fun x hx => absurd hx (List.not_mem_nil x),
     fun x hx => absurd hx (List.not_mem_nil x)⟩
    (List.cons_ne_nil _ _) (List.cons_ne_nil _ _) (List.cons_ne_nil _ _)
    (save_noFail_error_none _ _ _ _)

/-! ### Fetch-cycle lemmas for headline marking -/

theorem processArticles_cache (oracle : Nat → Nat → Bool)
    (parse : String → Option UTCDateTime) (now : UTCDateTime) :
    ∀ (arts : List MarketauxNewsArticle) (i : Nat) (db : NewsDB),
      (processArticles oracle parse now arts i db).1.news_daily_cache
        = db.news_daily_cache := by
  intro arts
  induction arts with
  | nil => intro i db; rfl
  | cons a rest ih =>
    intro i db
    rw [processArticles]
    simp only []
    split
    · rw [ih, save_news_daily_cache]
    · simp only []
      rw [ih, save_news_daily_cache]

theorem processArticles_preserves_uuid (oracle : Nat → Nat → Bool)
    (parse : String → Option UTCDateTime) (now : UTCDateTime) :
    ∀ (arts : List MarketauxNewsArticle) (i : Nat) (db : NewsDB) (u : String),
      (∃ y ∈ db.news_articles, y.uuid = u) →
      ∃ y ∈ (processArticles oracle parse now arts i db).1.news_articles,
        y.uuid = u := by
  intro arts
  induction arts with
  | nil => intro i db u h; exact h
  | cons a rest ih =>
    intro i db u h
    rw [processArticles]
    simp only []
    split
    · exact ih (i + 1) _ u (save_preserves_article_uuid h)
    · simp only []
      exact ih (i + 1) _ u (save_preserves_article_uuid h)

theorem processArticles_headline_saved (oracle : Nat → Nat → Bool)
    (parse : String → Option UTCDateTime) (now : UTCDateTime) :
    ∀ (arts : List MarketauxNewsArticle) (i : Nat) (db : NewsDB) (u : String),
      u ∈ (processArticles oracle parse now arts i db).2.2 →
      ∃ y ∈ (processArticles oracle parse now arts i db).1.news_articles,
        y.uuid = u := by
  intro arts
  induction arts with
  | nil => intro i db u h; cases h
  | cons a rest ih =>
    intro i db u h
    rw [processArticles] at h ⊢
    simp only [] at h ⊢
    cases herr : (saveNewsArticleWithRelations (oracle i) parse now a db).error with
    | some j =>
      rw [herr] at h
      exact ih (i + 1) _ u h
    | none =>
      rw [herr] at h
      simp only [] at h ⊢
      by_cases hcand : isHeadlineCandidate a
      · rw [if_pos hcand] at h
        rcases List.mem_cons.mp h with h1 | h1
        · subst h1
          obtain ⟨y, hy, hyu, _⟩ := save_ok_article_mem herr
          exact processArticles_preserves_uuid oracle parse now rest (i + 1) _
            a.uuid ⟨y, hy, hyu⟩
        · exact ih (i + 1) _ u h1
      · rw [if_neg hcand] at h
        exact ih (i + 1) _ u h

theorem upsertHeadlineRow_mem (r x : HeadlineCacheRow)
    (rows : List HeadlineCacheRow) (h : x ∈ upsertHeadlineRow r rows) :
    (∃ y ∈ rows, x.news_uuid = y.news_uuid) ∨ x = r := by
  unfold upsertHeadlineRow at h
  split at h
  · obtain ⟨y, hy, hye⟩ := List.mem_map.mp h
    left
    refine ⟨y, hy, ?_⟩
    by_cases hc : y.news_uuid == r.news_uuid && y.date == r.date
    · rw [if_pos hc] at hye
      rw [← hye]
    · rw [if_neg hc] at hye
      rw [← hye]
  · rcases List.mem_append.mp h with h1 | h1
    · exact Or.inl ⟨x, h1, rfl⟩
    · exact Or.inr (List.mem_singleton.mp h1)

theorem foldl_upsertHeadline_mem :
    ∀ (toAdd : List HeadlineCacheRow) (rows0 : List HeadlineCacheRow)
      (x : HeadlineCacheRow),
      x ∈ toAdd.foldl (fun rows r => upsertHeadlineRow r rows) rows0 →
      (∃ y ∈ rows0, x.news_uuid = y.news_uuid) ∨
        ∃ t ∈ toAdd, x.news_uuid = t.news_uuid := by
  intro toAdd
  induction toAdd with
  | nil => intro rows0 x h; exact Or.inl ⟨x, h, rfl⟩
  | cons t ts ih =>
    intro rows0 x h
    rcases ih (upsertHeadlineRow t rows0) x h with h1 | h1
    · obtain ⟨y, hy, hyu⟩ := h1
      rcases upsertHeadlineRow_mem t y rows0 hy with h2 | h2
      · obtain ⟨z, hz, hzu⟩ := h2
        exact Or.inl ⟨z, hz, by rw [hyu, hzu]⟩
      · exact Or.inr ⟨t, List.mem_cons_self t ts, by rw [hyu, h2]⟩
    · obtain ⟨u, hu, huu⟩ := h1
      exact Or.inr ⟨u, List.mem_cons_of_mem t hu, huu⟩

theorem mem_enumFrom_snd {α : Type} :
    ∀ (l : List α) (n : Nat) (p : Nat × α), p ∈ l.enumFrom n → p.2 ∈ l := by
  intro l
  induction l with
  | nil => intro n p h; cases h
  | cons a rest ih =>
    intro n p h
    rcases List.mem_cons.mp h with h1 | h1
    · rw [h1]
      exact List.mem_cons_self a rest
    · exact List.mem_cons_of_mem a (ih (n + 1) p h1)

theorem markHeadlineNews_articles (us : List String) (d : String)
    (ps : List ℤ) (db : NewsDB) :
    (markHeadlineNews us d ps db).news_articles = db.news_articles := by
  unfold markHeadlineNews
  split <;> rfl

theorem markHeadlineNews_cache_uuid (us : List String) (d : String)
    (ps : List ℤ) (db : NewsDB) (x : HeadlineCacheRow)
    (hx : x ∈ (markHeadlineNews us d ps db).news_daily_cache) :
    (∃ y ∈ db.news_daily_cache, x.news_uuid = y.news_uuid) ∨ x.news_uuid ∈ us := by
  unfold markHeadlineNews at hx
  split at hx
  · exact Or.inl ⟨x, hx, rfl⟩
  · simp only [] at hx
    rcases foldl_upsertHeadline_mem _ _ _ hx with h1 | h1
    · exact Or.inl h1
    · obtain ⟨t, ht, htu⟩ := h1
      obtain ⟨p, hp, rfl⟩ := List.mem_map.mp ht
      right
      rw [htu]
      exact mem_enumFrom_snd us 0 p hp

/-- C4 (amended): every `news_daily_cache` row present after a fetch-and-save
cycle references a `news_articles` row that exists in the resulting state
(marked uuids are exactly the successfully saved headline candidates, whose
article rows the save created), provided the pre-existing cache rows already
satisfied this.  The stronger same-date claim fails: see the
counterexample. -/
theorem headline_marks_reference_existing_articles (oracle : Nat → Nat → Bool)
    (parse : String → Option UTCDateTime) (now : UTCDateTime) (d : String)
    (data : List MarketauxNewsArticle) (db : NewsDB)
    (h0 : ∀ r ∈ db.news_daily_cache, ∃ y ∈ db.news_articles,
      y.uuid = r.news_uuid) :
    ∀ r ∈ (fetchAndSaveNews oracle parse now d data db).1.news_daily_cache,
      ∃ y ∈ (fetchAndSaveNews oracle parse now d data db).1.news_articles,
        y.uuid = r.news_uuid := by
  intro r hr
  unfold fetchAndSaveNews at hr ⊢
  by_cases hd : data.isEmpty
  · simp only [hd, if_true] at hr ⊢
    exact h0 r hr
  · simp [hd] at hr ⊢
    by_cases hh : (processArticles oracle parse now data 0 db).2.2 = []
    · simp only [hh, if_true] at hr ⊢
      rw [processArticles_cache] at hr
      obtain ⟨y, hy, hyu⟩ := h0 r hr
      exact processArticles_preserves_uuid oracle parse now data 0 db r.news_uuid
        ⟨y, hy, hyu⟩
    · simp [hh] at hr ⊢
      rw [markHeadlineNews_articles]
      rcases markHeadlineNews_cache_uuid _ _ _ _ r hr with h1 | h1
      · obtain ⟨y, hy, hyu⟩ := h1
        rw [processArticles_cache] at hy
        obtain ⟨z, hz, hzu⟩ := h0 y hy
        rw [hyu]
        exact processArticles_preserves_uuid oracle parse now data 0 db
          y.news_uuid ⟨z, hz, hzu⟩
      · exact processArticles_headline_saved oracle parse now data 0 db
          r.news_uuid h1

/-! ### Concrete evaluation of the single-article fetch cycle -/

theorem sampleArticle_isHeadlineCandidate : isHeadlineCandidate sampleArticle = true := by
  have habs : |(-1/2 : ℚ)| = 1/2 := by
    rw [abs_of_neg (by norm_num)]
    norm_num
  simp [isHeadlineCandidate, sampleArticle, sampleEntity, decide_eq_true_eq, habs]
  norm_num

theorem processArticles_sample : processArticles (fun _ _ => false) parseSample
    nowSample [sampleArticle] 0 emptyNewsDB
    = ((saveNewsArticleWithRelations (fun _ => false) parseSample nowSample
        sampleArticle emptyNewsDB).db, [sampleArticle], [sampleArticle.uuid]) := by
  have hsave := save_noFail_error_none parseSample nowSample sampleArticle emptyNewsDB
  rw [processArticles]
  simp only []
  rw [hsave]
  simp [processArticles, sampleArticle_isHeadlineCandidate]

theorem fetchAndSaveNews_sample : (fetchAndSaveNews (fun _ _ => false) parseSample
    nowSample "2026-02-01" [sampleArticle] emptyNewsDB).1
    = markHeadlineNews [sampleArticle.uuid] "2026-02-01"
        (headlinePriorities [sampleArticle] [sampleArticle.uuid])
        (saveNewsArticleWithRelations (fun _ => false) parseSample nowSample
          sampleArticle emptyNewsDB).db := by
  rw [fetchAndSaveNews]
  simp [processArticles_sample]

theorem markHeadlineNews_sample_cache (ps : List ℤ) :
    (markHeadlineNews [sampleArticle.uuid] "2026-02-01" ps
      (saveNewsArticleWithRelations (fun _ => false) parseSample nowSample
        sampleArticle emptyNewsDB).db).news_daily_cache
    = [{ news_uuid := sampleArticle.uuid, date := "2026-02-01",
         is_headline := true, priority := ps.getD 0 0 }] := by
  have hc : (saveNewsArticleWithRelations (fun _ => false) parseSample nowSample
      sampleArticle emptyNewsDB).db.news_daily_cache = [] := by
    rw [save_news_daily_cache]
    rfl
  simp [markHeadlineNews, upsertHeadlineRow, hc, List.enumFrom]

theorem fetchAndSaveNews_sample_articles :
    (fetchAndSaveNews (fun _ _ => false) parseSample nowSample "2026-02-01"
      [sampleArticle] emptyNewsDB).1.news_articles
    = [articleRowOf parseSample nowSample sampleArticle] := by
  rw [fetchAndSaveNews_sample, markHeadlineNews_articles,
    save_ok_db (save_noFail_error_none _ _ _ _), applySaveArticle_news_articles]
  rfl

/-- Witness for C4 (amended): the single-article cycle on the empty
database, instantiated at the one cache row the run creates. -/
theorem headline_marks_reference_existing_articles_witness :
    ∃ y ∈ (fetchAndSaveNews (fun _ _ => false) parseSample nowSample
        "2026-02-01" [sampleArticle] emptyNewsDB).1.news_articles,
      y.uuid = ({ news_uuid := sampleArticle.uuid, date := "2026-02-01",
                  is_headline := true,
                  priority := (headlinePriorities [sampleArticle]
                    [sampleArticle.uuid]).getD 0 0 } : HeadlineCacheRow).news_uuid :=
  headline_marks_reference_existing_articles (fun _ _ => false) parseSample
    nowSample "2026-02-01" [sampleArticle] emptyNewsDB
    (fun r hr => absurd hr (List.not_mem_nil r)) _
    (by rw [fetchAndSaveNews_sample, markHeadlineNews_sample_cache]
        exact List.mem_singleton.mpr rfl)

/-- C1 counterexample: when `connection.beginTransaction()` (operation 0)
itself throws, the call exits with the database unchanged and the error
propagated, but the connection acquired from the pool is never released —
the source awaits `beginTransaction` between `pool.getConnection()` and the
`try`/`finally`, so that exit path bypasses `connection.release()`,
refuting the claim's released-on-every-exit-path guarantee. -/
theorem begin_failure_leaks_connection_cex :
    (saveNewsArticleWithRelations (fun k => k == 0) parseSample nowSample
        sampleArticle emptyNewsDB).released = false ∧
    (saveNewsArticleWithRelations (fun k => k == 0) parseSample nowSample
        sampleArticle emptyNewsDB).db = emptyNewsDB ∧
    (saveNewsArticleWithRelations (fun k => k == 0) parseSample nowSample
        sampleArticle emptyNewsDB).error = some 0 :=
  ⟨rfl, rfl, rfl⟩

/-- C1 (amended): `saveNewsArticleWithRelations` is atomic.  Once
`beginTransaction` has succeeded, the pooled connection is released on both
exit paths of the `try`/`catch`/`finally`: when any statement of the
transaction body fails, the persisted database equals the pre-call state
and the failing statement's error is propagated to the caller; when the
body succeeds, the committed working state is persisted and no error is
reported.  When `beginTransaction` itself fails, the database is unchanged
and the error propagates, but the connection is not released, because
`beginTransaction` runs before the `try`/`finally`. -/
theorem saveNewsArticleWithRelations_atomic (failAt : Nat → Bool)
    (parse : String → Option UTCDateTime) (now : UTCDateTime)
    (a : MarketauxNewsArticle) (db : NewsDB) :
    (failAt 0 = false →
      (saveNewsArticleWithRelations failAt parse now a db).released = true ∧
      (∀ i, saveNewsBody failAt parse now a { db := db, execCount := 1 } = .error i →
        (saveNewsArticleWithRelations failAt parse now a db).db = db ∧
        (saveNewsArticleWithRelations failAt parse now a db).error = some i) ∧
      (∀ s, saveNewsBody failAt parse now a { db := db, execCount := 1 } = .ok s →
        (saveNewsArticleWithRelations failAt parse now a db).db = s.db ∧
        (saveNewsArticleWithRelations failAt parse now a db).error = none)) ∧
    (failAt 0 = true →
      (saveNewsArticleWithRelations failAt parse now a db).released = false ∧
      (saveNewsArticleWithRelations failAt parse now a db).db = db ∧
      (saveNewsArticleWithRelations failAt parse now a db).error = some 0) := by
  constructor
  · intro hbegin
    refine ⟨?_, ?_, ?_⟩
    · cases h : saveNewsBody failAt parse now a { db := db, execCount := 1 } with
      | ok s => simp [saveNewsArticleWithRelations, hbegin, h]
      | error i => simp [saveNewsArticleWithRelations, hbegin, h]
    · intro i hi
      constructor <;> simp [saveNewsArticleWithRelations, hbegin, hi]
    · intro s hs
      constructor <;> simp [saveNewsArticleWithRelations, hbegin, hs]
  · intro hbegin
    refine ⟨?_, ?_, ?_⟩ <;> simp [saveNewsArticleWithRelations, hbegin]

/-- Witness for C1 (amended): `beginTransaction` succeeds and the highlight
insert (operation 6 of the call) fails after the article, categories and
entity were written; the persisted state equals the pre-call (empty)
database, the error surfaces, and the connection is released. -/
theorem saveNewsArticleWithRelations_atomic_witness :
    (saveNewsArticleWithRelations (fun k => k == 6) parseSample nowSample
        sampleArticle emptyNewsDB).released = true ∧
    (saveNewsArticleWithRelations (fun k => k == 6) parseSample nowSample
        sampleArticle emptyNewsDB).db = emptyNewsDB ∧
    (saveNewsArticleWithRelations (fun k => k == 6) parseSample nowSample
        sampleArticle emptyNewsDB).error = some 6 := by
  have h := (saveNewsArticleWithRelations_atomic (fun k => k == 6) parseSample
    nowSample sampleArticle emptyNewsDB).1 rfl
  exact ⟨h.1, (h.2.1 6 rfl).1, (h.2.1 6 rfl).2⟩

/-- C2 counterexample: after successfully re-saving `sampleArticle`'s uuid
with an empty category list, the category row of the first save is still
persisted, so the persisted categories are not those of the article just
saved.  (The source only replaces a relation when the incoming list is
non-empty.) -/
theorem save_empty_relations_stale_cex :
    emptyRelArticle.uuid = sampleArticle.uuid ∧
    emptyRelArticle.categories = [] ∧
    (saveNewsArticleWithRelations (fun _ => false) parseSample nowSample
        emptyRelArticle
        (saveNewsArticleWithRelations (fun _ => false) parseSample nowSample
          sampleArticle emptyNewsDB).db).error = none ∧
    categoriesFor
        (saveNewsArticleWithRelations (fun _ => false) parseSample nowSample
          emptyRelArticle
          (saveNewsArticleWithRelations (fun _ => false) parseSample nowSample
            sampleArticle emptyNewsDB).db).db
        emptyRelArticle.uuid = ["general"] := by
  decide

/-- C4 counterexample: running the fetch-and-save cycle for date 2026-02-01
on an article published 2026-01-03 creates a `news_daily_cache` row for
2026-02-01 whose uuid has no `news_articles` row with publish date
2026-02-01 (and `checkNewsExistsForDate` is still false for that date) —
headline marks are keyed to the fetch date, not the article's publish
date, and the news provider is not queried with a date filter. -/
theorem headline_mark_date_mismatch_cex :
    (∃ r ∈ (fetchAndSaveNews (fun _ _ => false) parseSample nowSample
        "2026-02-01" [sampleArticle] emptyNewsDB).1.news_daily_cache,
      r.news_uuid = "u1" ∧ r.date = "2026-02-01") ∧
    (¬ ∃ r ∈ (fetchAndSaveNews (fun _ _ => false) parseSample nowSample
        "2026-02-01" [sampleArticle] emptyNewsDB).1.news_articles,
      r.uuid = "u1" ∧ dateOfDateTime r.published_at = "2026-02-01") ∧
    checkNewsExistsForDate
      (fetchAndSaveNews (fun _ _ => false) parseSample nowSample
        "2026-02-01" [sampleArticle] emptyNewsDB).1 "2026-02-01" = false := by
  refine ⟨?_, ?_, ?_⟩
  · rw [fetchAndSaveNews_sample, markHeadlineNews_sample_cache]
    exact ⟨_, List.mem_singleton.mpr rfl, rfl, rfl⟩
  · rw [fetchAndSaveNews_sample_articles]
    decide
  · rw [checkNewsExistsForDate, fetchAndSaveNews_sample_articles]
    decide

/-! ### Maximum-of-fold lemmas for the priority rule -/

theorem foldl_max_le_acc : ∀ (l : List ℚ) (m : ℚ), m ≤ l.foldl max m := by
  intro l
  induction l with
  | nil => intro m; exact le_refl m
  | cons x xs ih => intro m; exact le_trans (le_max_left m x) (ih (max m x))

theorem foldl_max_mem_le : ∀ (l : List ℚ) (m a : ℚ), a ∈ l → a ≤ l.foldl max m := by
  intro l
  induction l with
  | nil => intro m a ha; cases ha
  | cons x xs ih =>
    intro m a ha
    rcases List.mem_cons.mp ha with h1 | h1
    · rw [h1]
      exact le_trans (le_max_right m x) (foldl_max_le_acc xs (max m x))
    · exact ih (max m x) a h1

theorem foldl_max_cases : ∀ (l : List ℚ) (m : ℚ), l.foldl max m = m ∨ l.foldl max m ∈ l := by
  intro l
  induction l with
  | nil => intro m; exact Or.inl rfl
  | cons x xs ih =>
    intro m
    rcases ih (max m x) with h | h
    · rcases max_choice m x with hm | hm
      · exact Or.inl (by rw [List.foldl_cons, h, hm])
      · exact Or.inr (by rw [List.foldl_cons, h, hm]; exact List.mem_cons_self x xs)
    · exact Or.inr (List.mem_cons_of_mem x h)

theorem maxAbsSentiment_spec (e : NewsEntity) (rest : List NewsEntity) :
    (∃ x ∈ e :: rest, maxAbsSentiment (e :: rest) = |x.sentiment_score|) ∧
    ∀ x ∈ e :: rest, |x.sentiment_score| ≤ maxAbsSentiment (e :: rest) := by
  have heq : maxAbsSentiment (e :: rest)
      = (rest.map (fun x => |x.sentiment_score|)).foldl max |e.sentiment_score| := by
    rw [maxAbsSentiment, List.foldl_map]
  constructor
  · rcases foldl_max_cases (rest.map fun x => |x.sentiment_score|) |e.sentiment_score| with h | h
    · exact ⟨e, List.mem_cons_self e rest, by rw [heq, h]⟩
    · obtain ⟨x, hx, hxe⟩ := List.mem_map.mp h
      exact ⟨x, List.mem_cons_of_mem e hx, by rw [heq, ← hxe]⟩
  · intro x hx
    rcases List.mem_cons.mp hx with h1 | h1
    · rw [h1, heq]
      exact foldl_max_le_acc _ _
    · rw [heq]
      exact foldl_max_mem_le _ _ _ (List.mem_map_of_mem _ h1)

/-- C3: the headline selection rule of the fetch-and-save cycle.  An
article qualifies iff some entity has `|sentiment_score| > 0.3` or some
entity has `match_score > 20`; a qualifying article's priority is
`round(100 * |s|)` where `|s|` is the maximum absolute sentiment over its
entities; concretely, `sampleArticle` (one entity, sentiment −0.5, match 10)
qualifies with priority 50 and `lowArticle` (all `|sentiment| ≤ 0.3`,
`match_score ≤ 20`) does not qualify. -/
theorem headline_selection_rule (a : MarketauxNewsArticle) :
    (isHeadlineCandidate a = true ↔
      ((∃ e ∈ a.entities, (3 : ℚ)/10 < |e.sentiment_score|) ∨
       (∃ e ∈ a.entities, (20 : ℚ) < e.match_score))) ∧
    (isHeadlineCandidate a = true →
      ∃ e ∈ a.entities,
        headlinePriority a = round ((100 : ℚ) * |e.sentiment_score|) ∧
        ∀ e2 ∈ a.entities, |e2.sentiment_score| ≤ |e.sentiment_score|) ∧
    (isHeadlineCandidate sampleArticle = true ∧ headlinePriority sampleArticle = 50) ∧
    isHeadlineCandidate lowArticle = false := by
  refine ⟨?_, ?_, ⟨sampleArticle_isHeadlineCandidate, ?_⟩, ?_⟩
  · constructor
    · intro h
      unfold isHeadlineCandidate at h
      simp only [Bool.and_eq_true, Bool.or_eq_true, List.any_eq_true,
        decide_eq_true_eq] at h
      rcases h.2 with ⟨e, he, hP⟩ | ⟨e, he, hP⟩
      · exact Or.inl ⟨e, he, hP⟩
      · exact Or.inr ⟨e, he, hP⟩
    · intro h
      have hne : a.entities.isEmpty = false := by
        rcases h with ⟨e, he, _⟩ | ⟨e, he, _⟩ <;>
        · cases hl : a.entities with
          | nil => rw [hl] at he; cases he
          | cons y ys => rfl
      unfold isHeadlineCandidate
      simp only [hne, Bool.not_false, Bool.true_and, Bool.or_eq_true,
        List.any_eq_true, decide_eq_true_eq]
      rcases h with ⟨e, he, hP⟩ | ⟨e, he, hP⟩
      · exact Or.inl ⟨e, he, hP⟩
      · exact Or.inr ⟨e, he, hP⟩
  · intro h
    have hne : ¬a.entities.isEmpty := by
      intro hemp
      unfold isHeadlineCandidate at h
      rw [hemp] at h
      simp at h
    obtain ⟨e0, rest, hsplit⟩ : ∃ e0 rest, a.entities = e0 :: rest := by
      cases hl : a.entities with
      | nil => exact absurd (by rw [hl]; rfl : a.entities.isEmpty = true) hne
      | cons e0 rest => exact ⟨e0, rest, rfl⟩
    have hspec := maxAbsSentiment_spec e0 rest
    rw [← hsplit] at hspec
    obtain ⟨⟨x, hx, hxe⟩, hub⟩ := hspec
    refine ⟨x, hx, ?_, ?_⟩
    · rw [headlinePriority, if_neg hne, hxe, mul_comm]
    · intro e2 he2
      exact le_of_le_of_eq (hub e2 he2) hxe
  · have habs : |(-1/2 : ℚ)| = 1/2 := by
      rw [abs_of_neg (by norm_num)]
      norm_num
    have h50 : (|(-1/2 : ℚ)| * 100) = ((50 : ℤ) : ℚ) := by
      rw [habs]
      norm_num
    rw [headlinePriority]
    simp only [sampleArticle, sampleEntity, maxAbsSentiment, List.foldl_nil,
      List.isEmpty_cons, ite_false, Bool.false_eq_true, if_false]
    rw [h50, round_intCast]
  · unfold isHeadlineCandidate
    simp only [lowArticle, lowEntityA, lowEntityB, sampleArticle,
      List.any_cons, List.any_nil, decide_eq_true_eq, Bool.and_eq_true,
      Bool.or_eq_true, List.isEmpty_cons, Bool.not_false]
    have h1 : ¬((3 : ℚ)/10 < |(3/10 : ℚ)|) := by
      rw [abs_of_nonneg (by norm_num : (0:ℚ) ≤ 3/10)]
      exact lt_irrefl _
    have h2 : ¬((3 : ℚ)/10 < |(-3/10 : ℚ)|) := by
      rw [abs_of_neg (by norm_num)]
      norm_num
    simp [h1, h2]
    norm_num


/-- Witness for C3's priority characterization at `sampleArticle`. -/
theorem headline_selection_rule_witness :
    ∃ e ∈ sampleArticle.entities,
      headlinePriority sampleArticle = round ((100 : ℚ) * |e.sentiment_score|) ∧
      ∀ e2 ∈ sampleArticle.entities, |e2.sentiment_score| ≤ |e.sentiment_score| :=
  (headline_selection_rule sampleArticle).2.1 sampleArticle_isHeadlineCandidate

/-- C7 counterexample: with the first currency pair's provider call failing,
the batch pauses only twice, not once per non-last instrument (which would
be three times for the four tracked pairs) — the 12-second pause is inside
the `try` block and is skipped for a failed instrument. -/
theorem pause_after_failure_cex :
    (fetchAndSaveCurrencyRates failFirstFetch (fun _ => true) "2026-02-01"
        []).events.count BatchEvent.pause = 2 ∧
    MAIN_CURRENCIES.length = 4 := by
  decide

end StockTracker
